import Mathlib

/-!
# hikyuu strategy runtime: the order ledger (OrderTradeManager)

A shallow embedding of `hikyuu_cpp/hikyuu/strategy/OrderTradeManager.cpp`.

Numbers.  A C++ `double` is embedded as `Dbl`: either the non-numeric value NaN
(the value `sell` itself tests for with `std::isnan`) or a finite number, kept as an
exact rational.  Arithmetic on NaN yields NaN and every ordered comparison and `==`
involving NaN is false, as in IEEE-754; the rounding error of finite arithmetic and
the infinities are idealised away.  Where that rounding error decides the outcome, in
the cash path of `buy`, the path is embedded a second time with binary64 arithmetic
(`rnd64`, `buyCash64`).  Instrument metadata (unit, minimum and maximum trade number)
are numbers.

State.  The member variables the three mutating operations read or write are the
fields of `OrderTradeManager`; the position map (`std::map` keyed by `stock.id()`) is
an association list handled only through `mapFind`, `mapAssign` and `mapErase`.
Broker sinks are external; each one is a pair of functions returning the
acknowledgement string, and every operation reports the list of sink calls it made.
-/

namespace hku

/-! ## Doubles -/

/-- Value of a C++ `double`: NaN or a finite number. -/
inductive Dbl where
  | nan : Dbl
  | fin (q : ℚ) : Dbl
  deriving DecidableEq

/-- Embedding of `std::isnan`. -/
def Dbl.isnan : Dbl → Bool
  | .nan => true
  | .fin _ => false

/-- Embedding of `+` on doubles. -/
def Dbl.add : Dbl → Dbl → Dbl
  | .fin a, .fin b => .fin (a + b)
  | _, _ => .nan

/-- Embedding of binary `-` on doubles. -/
def Dbl.sub : Dbl → Dbl → Dbl
  | .fin a, .fin b => .fin (a - b)
  | _, _ => .nan

/-- Embedding of `*` on doubles. -/
def Dbl.mul : Dbl → Dbl → Dbl
  | .fin a, .fin b => .fin (a * b)
  | _, _ => .nan

instance : Add Dbl := ⟨Dbl.add⟩
instance : Sub Dbl := ⟨Dbl.sub⟩
instance : Mul Dbl := ⟨Dbl.mul⟩

/-- Embedding of `a < b` on doubles (false when either side is NaN). -/
def Dbl.lt : Dbl → Dbl → Bool
  | .fin a, .fin b => decide (a < b)
  | _, _ => false

/-- Embedding of `a > b` on doubles. -/
def Dbl.gt (a b : Dbl) : Bool := Dbl.lt b a

/-- Embedding of `a <= b` on doubles (false when either side is NaN). -/
def Dbl.le : Dbl → Dbl → Bool
  | .fin a, .fin b => decide (a ≤ b)
  | _, _ => false

/-- Embedding of `a >= b` on doubles. -/
def Dbl.ge (a b : Dbl) : Bool := Dbl.le b a

/-- Embedding of `a == b` on doubles (false when either side is NaN). -/
def Dbl.eq : Dbl → Dbl → Bool
  | .fin a, .fin b => decide (a = b)
  | _, _ => false

/-- Embedding of `a != b` on doubles (true when either side is NaN). -/
def Dbl.ne (a b : Dbl) : Bool := !(Dbl.eq a b)

/-- The type `price_t` of the source is `double`. -/
abbrev price_t := Dbl

/-- Modelled from the spec: the constant `MAX_DOUBLE` (the reserved "sell entire
holding" sentinel) is declared outside src; it is the largest finite double,
`(2^53 - 1) * 2^971`. -/
def MAX_DOUBLE : Dbl :=
  .fin 179769313486231570814527423731704356798070567525844996598917476803157260780028538760589558632766878171540458953514382464234321326889464182768467546703537516986049910576551282076245490090389328944075868508455133942304583236903222948165808559332123348274797826204144723168738177180919299881250404026184124858368

/-- Modelled from the spec: `roundEx` is declared outside src.  The spec fixes
"nearest-value rounding with ties away from zero" at the given number of decimals;
this is that rounding on a finite number. -/
def roundQ (x : ℚ) (ndigits : Int) : ℚ :=
  let f : ℚ := (10 : ℚ) ^ ndigits
  if 0 ≤ x then (⌊x * f + 1 / 2⌋ : ℚ) / f
  else -(⌊-x * f + 1 / 2⌋ : ℚ) / f

/-- Modelled from the spec: `roundEx` on doubles; rounding NaN gives NaN, like every
arithmetic step on NaN. -/
def roundEx : Dbl → Int → Dbl
  | .nan, _ => .nan
  | .fin q, ndigits => .fin (roundQ q ndigits)

/-- Whether a double is a value rounded to `ndigits` decimals: a number that is an integer
multiple of `10^-ndigits`. -/
def Dbl.isRounded : Dbl → Int → Bool
  | .nan, _ => false
  | .fin q, ndigits => decide ((q * (10 : ℚ) ^ ndigits).den = 1)

/-! ## Data model -/

/-- Instants; `Datetime` is totally ordered. -/
abbrev Datetime := Int

/-- The enum `SystemPart` (origin of an order), by its tag. -/
abbrev SystemPart := Nat

/-- Modelled from the spec: the class `Stock` is declared outside src.  These are the
accessors the ledger calls on it. -/
structure Stock where
  isNull : Bool
  id : Nat
  market : String
  code : String
  unit : ℚ
  minTradeNumber : ℚ
  maxTradeNumber : ℚ
  deriving DecidableEq

/-- The null instrument, as held by a default-constructed record. -/
def Null_Stock : Stock :=
  { isNull := true, id := 0, market := "", code := "", unit := 1,
    minTradeNumber := 0, maxTradeNumber := 0 }

/-- Side of a trade record. -/
inductive BUSINESS where
  | BUSINESS_BUY
  | BUSINESS_SELL
  | BUSINESS_INVALID
  deriving DecidableEq

/-- Modelled from the spec: `CostRecord`, the fee breakdown of one trade; the ledger
reads only `total`. -/
structure CostRecord where
  commission : price_t
  stamptax : price_t
  transferfee : price_t
  others : price_t
  total : price_t
  deriving DecidableEq

/-- Modelled from the spec: `TradeRecord`, the receipt of one buy or sell attempt, with
the fields in the order of the constructor call in `buy` and `sell`. -/
structure TradeRecord where
  stock : Stock
  datetime : Option Datetime
  business : BUSINESS
  planPrice : price_t
  realPrice : price_t
  goalPrice : price_t
  number : Dbl
  cost : CostRecord
  stoploss : price_t
  cash : price_t
  fromPart : SystemPart
  deriving DecidableEq

/-- Modelled from the spec: the default-constructed `TradeRecord`, an INVALID-side
record. -/
def Null_TradeRecord : TradeRecord :=
  { stock := Null_Stock, datetime := none, business := .BUSINESS_INVALID,
    planPrice := .fin 0, realPrice := .fin 0, goalPrice := .fin 0, number := .fin 0,
    cost := ⟨.fin 0, .fin 0, .fin 0, .fin 0, .fin 0⟩, stoploss := .fin 0,
    cash := .fin 0, fromPart := 0 }

/-- Modelled from the spec: `PositionRecord`, with the fields in the order of the
constructor call in `buy`; `number` is the current holding. -/
structure PositionRecord where
  stock : Stock
  takeDatetime : Datetime
  cleanDatetime : Option Datetime
  number : Dbl
  stoploss : price_t
  goalPrice : price_t
  totalNumber : Dbl
  buyMoney : price_t
  totalCost : price_t
  totalRisk : price_t
  sellMoney : price_t
  deriving DecidableEq

/-- The cost model: `getBuyCost` and `getSellCost` of the ledger delegate to it. -/
structure TradeCost where
  getBuyCost : Datetime → Stock → price_t → Dbl → CostRecord
  getSellCost : Datetime → Stock → price_t → Dbl → CostRecord

/-- A broker sink: `buy` and `sell` return the acknowledgement string. -/
structure OrderBroker where
  buy : Datetime → String → String → price_t → Dbl → String
  sell : Datetime → String → String → price_t → Dbl → String

/-- One call made on a broker sink: which sink (position in the registration list),
which method, and the arguments. -/
structure BrokerCall where
  sink : Nat
  business : BUSINESS
  datetime : Datetime
  market : String
  code : String
  price : price_t
  number : Dbl
  deriving DecidableEq

/-- The position map type, `std::map<uint64_t, PositionRecord>`. -/
abbrev position_map_type := List (Nat × PositionRecord)

/-- Lookup `m.find(k)`; `none` stands for `m.end()`. -/
def mapFind (k : Nat) : position_map_type → Option PositionRecord
  | [] => none
  | (k1, v) :: rest => if k1 = k then some v else mapFind k rest

/-- Assignment `m[k] = v`: overwrite the entry of `k`, or add one. -/
def mapAssign (k : Nat) (v : PositionRecord) : position_map_type → position_map_type
  | [] => [(k, v)]
  | (k1, v1) :: rest => if k1 = k then (k, v) :: rest else (k1, v1) :: mapAssign k v rest

/-- Removal `m.erase(k)`. -/
def mapErase (k : Nat) : position_map_type → position_map_type
  | [] => []
  | (k1, v1) :: rest => if k1 = k then mapErase k rest else (k1, v1) :: mapErase k rest

/-- The ledger state: the members of `OrderTradeManager` (and of its base class) that
`checkin`, `buy` and `sell` read or write. -/
structure OrderTradeManager where
  m_name : String
  m_costfunc : TradeCost
  precision : Int
  m_broker_list : List OrderBroker
  m_init_datetime : Datetime
  m_first_datetime : Datetime
  m_last_datetime : Datetime
  m_init_cash : price_t
  m_cash : price_t
  m_position : position_map_type
  m_broker_last_datetime : Datetime

/-- What a call of `buy` or `sell` produces: the returned record, the ledger after the
call, and the sink calls made, in order. -/
structure Outcome where
  record : TradeRecord
  tm : OrderTradeManager
  calls : List BrokerCall

/-! ## Operations -/

/-- The constructor.  `now` is the value of `Datetime::now()`; `precision` and `brokers`
are the base-class parameter "precision" and the registered sinks. -/
def OrderTradeManager.new (datetime : Datetime) (initcash : price_t) (costfunc : TradeCost)
    (name : String) (now : Datetime) (precision : Int) (brokers : List OrderBroker) :
    OrderTradeManager :=
  { m_name := name, m_costfunc := costfunc, precision := precision, m_broker_list := brokers,
    m_init_datetime := datetime, m_first_datetime := datetime, m_last_datetime := datetime,
    m_init_cash := roundEx initcash 2, m_cash := roundEx initcash 2, m_position := [],
    m_broker_last_datetime := now }

/-- Modelled from the spec: the accessor `lastDatetime()` is declared in the header,
outside src; it is the ledger's last-operation time, the member `m_last_datetime` that
`checkin` reads directly. -/
def lastDatetime (tm : OrderTradeManager) : Datetime := tm.m_last_datetime

/-- The base-class `getBuyCost`, which asks the cost model. -/
def getBuyCost (tm : OrderTradeManager) (datetime : Datetime) (stock : Stock)
    (price : price_t) (num : Dbl) : CostRecord :=
  tm.m_costfunc.getBuyCost datetime stock price num

/-- The base-class `getSellCost`, which asks the cost model. -/
def getSellCost (tm : OrderTradeManager) (datetime : Datetime) (stock : Stock)
    (price : price_t) (num : Dbl) : CostRecord :=
  tm.m_costfunc.getSellCost datetime stock price num

/-- Embedding of `OrderTradeManager::checkin`: the returned flag and the ledger after the call. -/
def checkin (tm : OrderTradeManager) (datetime : Datetime) (cash : price_t) :
    Bool × OrderTradeManager :=
  if datetime < tm.m_last_datetime then (false, tm)
  else (true, { tm with m_cash := tm.m_cash + cash })

/-- The body of the loop over `m_broker_list`: each sink is called, and the marker moves
to `datetime` when the sink's answer is non-empty and `datetime` is later than the marker. -/
def brokerLoop (call : OrderBroker → String) (datetime : Datetime) :
    List OrderBroker → Datetime → Datetime
  | [], last => last
  | b :: rest, last =>
    let broker_ret := call b
    brokerLoop call datetime rest
      (if !broker_ret.isEmpty && decide (datetime > last) then datetime else last)

/-- The sink calls made by one pass over `m_broker_list`. -/
def brokerCalls (business : BUSINESS) (datetime : Datetime) (stock : Stock)
    (realPrice : price_t) (number : Dbl) (brokers : List OrderBroker) : List BrokerCall :=
  (List.range brokers.length).map fun i =>
    { sink := i, business := business, datetime := datetime, market := stock.market,
      code := stock.code, price := realPrice, number := number }

/-- The loop over `m_broker_list` written with its side effects: sink number `i` is called
(the call is written down by `mk i`), and the marker moves to `datetime` when the answer is
non-empty and `datetime` is later than the marker.  The result is the marker after the loop
and the calls made, in order. -/
def brokerLoopTrace (call : OrderBroker → String) (mk : Nat → BrokerCall) (datetime : Datetime) :
    List OrderBroker → Nat → Datetime → List BrokerCall → Datetime × List BrokerCall
  | [], _, last, log => (last, log)
  | b :: rest, i, last, log =>
    let broker_ret := call b
    brokerLoopTrace call mk datetime rest (i + 1)
      (if !broker_ret.isEmpty && decide (datetime > last) then datetime else last)
      (log ++ [mk i])

/-- The part of `OrderTradeManager::buy` after its last check (from "更新现金" to the
return): the cash update, the BUY record, the position update and the broker loop.
`cost`, `precision` and `money` are the locals computed before the cash check. -/
def buyFill (tm : OrderTradeManager) (datetime : Datetime) (stock : Stock) (realPrice : price_t)
    (number : Dbl) (stoploss goalPrice planPrice : price_t) (fromPart : SystemPart)
    (cost : CostRecord) (precision : Int) (money : price_t) : Outcome :=
  let m_cash := roundEx (tm.m_cash - money - cost.total) precision
  let result : TradeRecord :=
    ⟨stock, some datetime, .BUSINESS_BUY, planPrice, realPrice, goalPrice, number, cost,
      stoploss, m_cash, fromPart⟩
  let m_position :=
    match mapFind stock.id tm.m_position with
    | none =>
      mapAssign stock.id
        ⟨stock, datetime, none, number, stoploss, goalPrice, number, money, cost.total,
          roundEx ((realPrice - stoploss) * number * .fin stock.unit) precision, .fin 0⟩
        tm.m_position
    | some position =>
      mapAssign stock.id
        { position with
          number := position.number + number
          stoploss := stoploss
          goalPrice := goalPrice
          totalNumber := position.totalNumber + number
          buyMoney := roundEx (money + position.buyMoney) precision
          totalCost := roundEx (cost.total + position.totalCost) precision
          totalRisk :=
            roundEx (position.totalRisk + (realPrice - stoploss) * number * .fin stock.unit)
              precision }
        tm.m_position
  if datetime > tm.m_broker_last_datetime then
    ⟨result,
      { tm with
        m_cash := m_cash
        m_position := m_position
        m_broker_last_datetime :=
          brokerLoop (fun b => b.buy datetime stock.market stock.code realPrice number)
            datetime tm.m_broker_list tm.m_broker_last_datetime },
      brokerCalls .BUSINESS_BUY datetime stock realPrice number tm.m_broker_list⟩
  else
    ⟨result, { tm with m_cash := m_cash, m_position := m_position }, []⟩

/-- Embedding of `OrderTradeManager::buy`: the checks, each returning the INVALID record
and the untouched ledger, then `buyFill`. -/
def buy (tm : OrderTradeManager) (datetime : Datetime) (stock : Stock) (realPrice : price_t)
    (number : Dbl) (stoploss goalPrice planPrice : price_t) (fromPart : SystemPart) : Outcome :=
  let result : TradeRecord := { Null_TradeRecord with business := .BUSINESS_INVALID }
  if stock.isNull then ⟨result, tm, []⟩
  else if datetime < lastDatetime tm then ⟨result, tm, []⟩
  else if Dbl.eq number (.fin 0) then ⟨result, tm, []⟩
  else if Dbl.lt number (.fin stock.minTradeNumber) then ⟨result, tm, []⟩
  else if Dbl.gt number (.fin stock.maxTradeNumber) then ⟨result, tm, []⟩
  else
    let cost := getBuyCost tm datetime stock realPrice number
    let precision := tm.precision
    let money := roundEx (realPrice * number * .fin stock.unit) precision
    if Dbl.lt tm.m_cash (roundEx (money + cost.total) precision) then ⟨result, tm, []⟩
    else
      buyFill tm datetime stock realPrice number stoploss goalPrice planPrice fromPart cost
        precision money

/-- The part of `OrderTradeManager::sell` after its last check (from `getSellCost` to the
return): the cash update, the SELL record, the position update with the removal at zero,
and the broker loop.  `position` is the record found in the map and `real_number` the
adjusted number to sell. -/
def sellFill (tm : OrderTradeManager) (datetime : Datetime) (stock : Stock) (realPrice : price_t)
    (stoploss goalPrice planPrice : price_t) (fromPart : SystemPart)
    (position : PositionRecord) (real_number : Dbl) : Outcome :=
  let cost := getSellCost tm datetime stock realPrice real_number
  let precision := tm.precision
  let money := roundEx (realPrice * real_number * .fin stock.unit) precision
  let m_cash := roundEx (tm.m_cash + money - cost.total) precision
  let result : TradeRecord :=
    ⟨stock, some datetime, .BUSINESS_SELL, planPrice, realPrice, goalPrice, real_number,
      cost, stoploss, m_cash, fromPart⟩
  let position1 : PositionRecord :=
    { position with
      number := position.number - real_number
      stoploss := stoploss
      goalPrice := goalPrice
      totalCost := roundEx (position.totalCost + cost.total) precision
      sellMoney := roundEx (position.sellMoney + money) precision }
  let m_position :=
    if Dbl.eq position1.number (.fin 0) then mapErase stock.id tm.m_position
    else mapAssign stock.id position1 tm.m_position
  if datetime > tm.m_broker_last_datetime then
    ⟨result,
      { tm with
        m_cash := m_cash
        m_position := m_position
        m_broker_last_datetime :=
          brokerLoop (fun b => b.sell datetime stock.market stock.code realPrice real_number)
            datetime tm.m_broker_list tm.m_broker_last_datetime },
      brokerCalls .BUSINESS_SELL datetime stock realPrice real_number tm.m_broker_list⟩
  else
    ⟨result, { tm with m_cash := m_cash, m_position := m_position }, []⟩

/-- Embedding of `OrderTradeManager::sell`.  `none` is the failure raised by
`HKU_CHECK(!std::isnan(number), ...)`, which leaves the ledger as it was; after it come
the checks, each returning the default (INVALID) record and the untouched ledger, then
`sellFill`. -/
def sell (tm : OrderTradeManager) (datetime : Datetime) (stock : Stock) (realPrice : price_t)
    (number : Dbl) (stoploss goalPrice planPrice : price_t) (fromPart : SystemPart) :
    Option Outcome :=
  if number.isnan then none
  else if stock.isNull then some ⟨Null_TradeRecord, tm, []⟩
  else if datetime < lastDatetime tm then some ⟨Null_TradeRecord, tm, []⟩
  else if Dbl.eq number (.fin 0) then some ⟨Null_TradeRecord, tm, []⟩
  else if Dbl.lt number (.fin stock.minTradeNumber) then some ⟨Null_TradeRecord, tm, []⟩
  else if Dbl.ne number MAX_DOUBLE && Dbl.gt number (.fin stock.maxTradeNumber) then
    some ⟨Null_TradeRecord, tm, []⟩
  else
    match mapFind stock.id tm.m_position with
    | none => some ⟨Null_TradeRecord, tm, []⟩
    | some position =>
      let real_number := if Dbl.eq number MAX_DOUBLE then position.number else number
      if Dbl.lt position.number real_number then some ⟨Null_TradeRecord, tm, []⟩
      else
        some (sellFill tm datetime stock realPrice stoploss goalPrice planPrice fromPart
          position real_number)

/-- The calls of one ledger API: a deposit, a buy or a sell, with their arguments. -/
inductive Op where
  | checkin (datetime : Datetime) (cash : price_t)
  | buy (datetime : Datetime) (stock : Stock) (realPrice : price_t) (number : Dbl)
      (stoploss goalPrice planPrice : price_t) (fromPart : SystemPart)
  | sell (datetime : Datetime) (stock : Stock) (realPrice : price_t) (number : Dbl)
      (stoploss goalPrice planPrice : price_t) (fromPart : SystemPart)

/-- The ledger after one call.  A `sell` that raises leaves the ledger as it was. -/
def step (tm : OrderTradeManager) : Op → OrderTradeManager
  | .checkin datetime cash => (checkin tm datetime cash).2
  | .buy datetime stock realPrice number stoploss goalPrice planPrice fromPart =>
    (buy tm datetime stock realPrice number stoploss goalPrice planPrice fromPart).tm
  | .sell datetime stock realPrice number stoploss goalPrice planPrice fromPart =>
    match sell tm datetime stock realPrice number stoploss goalPrice planPrice fromPart with
    | some o => o.tm
    | none => tm

/-- The ledger after a sequence of calls. -/
def run (tm : OrderTradeManager) (ops : List Op) : OrderTradeManager :=
  ops.foldl step tm

/-! ## Example data -/

/-- A cost model charging a fixed total per buy and per sell. -/
def fixedCost (b s : ℚ) : TradeCost :=
  { getBuyCost := fun _ _ _ _ => ⟨.fin b, .fin 0, .fin 0, .fin 0, .fin b⟩
    getSellCost := fun _ _ _ _ => ⟨.fin s, .fin 0, .fin 0, .fin 0, .fin s⟩ }

/-- An instrument traded in lots of at least 100 and at most 150 per order. -/
def exStock : Stock :=
  { isNull := false, id := 1, market := "SH", code := "600000", unit := 1,
    minTradeNumber := 100, maxTradeNumber := 150 }

/-- A second instrument. -/
def exStock2 : Stock :=
  { isNull := false, id := 2, market := "SZ", code := "000001", unit := 1,
    minTradeNumber := 100, maxTradeNumber := 1000000 }

/-- A fresh ledger created at time 0 with cash 100000.00, precision 2, buy cost 5.00,
sell cost 5.50 and no broker sink. -/
def exLedger : OrderTradeManager :=
  OrderTradeManager.new 0 (.fin 100000) (fixedCost 5 (11 / 2)) "SYS" 0 2 []

/-- The example ledger after buying 100 of `exStock` at 10.00 at time 10. -/
def exLedger1 : OrderTradeManager :=
  (buy exLedger 10 exStock (.fin 10) (.fin 100) (.fin 9) (.fin 12) (.fin 10) 0).tm

/-- The position the example ledger holds after that buy. -/
def exPosition : PositionRecord :=
  ⟨exStock, 10, none, .fin 100, .fin 9, .fin 12, .fin 100, .fin 1000, .fin 5, .fin 100, .fin 0⟩

/-- The outcome of selling the whole example holding at 11.00 at time 20. -/
def exSellAll : Outcome :=
  sellFill exLedger1 20 exStock (.fin 11) (.fin 9) (.fin 12) (.fin 11) 0 exPosition (.fin 100)

/-- The example ledger after a second buy of 100 of `exStock`, at time 11: it holds 200,
more than the instrument's maximum trade number. -/
def exLedger2 : OrderTradeManager :=
  (buy exLedger1 11 exStock (.fin 10) (.fin 100) (.fin 9) (.fin 12) (.fin 10) 0).tm

/-- The position the example ledger holds after the second buy. -/
def exPosition2 : PositionRecord :=
  ⟨exStock, 10, none, .fin 200, .fin 9, .fin 12, .fin 200, .fin 2000, .fin 10, .fin 200, .fin 0⟩

/-- A broker sink that acknowledges every order. -/
def exBrokerAck : OrderBroker :=
  { buy := fun _ _ _ _ _ => "ok", sell := fun _ _ _ _ _ => "ok" }

/-- A broker sink that returns the empty string for every order. -/
def exBrokerSilent : OrderBroker :=
  { buy := fun _ _ _ _ _ => "", sell := fun _ _ _ _ _ => "" }

/-- The example ledger with two registered sinks, the silent one first. -/
def exLedgerB : OrderTradeManager :=
  OrderTradeManager.new 0 (.fin 100000) (fixedCost 5 (11 / 2)) "SYS" 0 2
    [exBrokerSilent, exBrokerAck]

/-! ## The position invariant -/

/-- The position invariant: every record of the map has a holding greater than zero, and
no instrument has two records. -/
def positionsOk (m : position_map_type) : Prop :=
  (∀ kv ∈ m, Dbl.gt kv.2.number (.fin 0) = true) ∧ (m.map Prod.fst).Nodup

instance (m : position_map_type) : Decidable (positionsOk m) := by
  unfold positionsOk
  infer_instance

/-- A call on an instrument whose minimum trade number is non-negative and, for a buy, with a
numeric (non-NaN) number. -/
def Op.numeric : Op → Prop
  | .checkin _ _ => True
  | .buy _ stock _ number _ _ _ _ => 0 ≤ stock.minTradeNumber ∧ number.isnan = false
  | .sell _ stock _ _ _ _ _ _ => 0 ≤ stock.minTradeNumber

instance (op : Op) : Decidable op.numeric := by
  cases op <;> unfold Op.numeric <;> infer_instance

/-! ## The strategy runtime (StrategyBase)

A shallow embedding of the event loop, the tick handler and the timer registration of
`hikyuu_cpp/hikyuu/strategy/StrategyBase.cpp`.  The closures put on the event queue are
named by what they call; the scheduler is represented by the list of registrations made
on it, in order. -/

/-- Modelled from the spec: the class `TimeDelta` is declared outside src.  A duration, or a
time of day counted from midnight, in microseconds. -/
abbrev TimeDelta := Int

/-- The constructor `TimeDelta(days, hours, minutes, seconds, milliseconds, microseconds)`. -/
def TimeDelta.new (days hours minutes seconds milliseconds microseconds : Int) : TimeDelta :=
  ((((days * 24 + hours) * 60 + minutes) * 60 + seconds) * 1000 + milliseconds) * 1000
    + microseconds

/-- The helper `Seconds(n)`. -/
def Seconds (n : Int) : TimeDelta := TimeDelta.new 0 0 0 n 0 0

/-- The helper `Minutes(n)`. -/
def Minutes (n : Int) : TimeDelta := TimeDelta.new 0 0 n 0 0 0

/-- The helper `Hours(n)`. -/
def Hours (n : Int) : TimeDelta := TimeDelta.new 0 n 0 0 0 0

/-- The type `KQuery::KType` of timeframes (a string such as "DAY" or "MIN5"). -/
abbrev KType := String

/-- The strategy callbacks a queued closure or a timer can call. -/
inductive Callback where
  | onTick
  | onBar (ktype : KType)
  | onClock (delta : TimeDelta)
  | onMarketOpen
  | onMarketClose
  deriving DecidableEq

/-- An element of the event queue: a closure calling a strategy callback, or the null task
(`isNullTask()`), the shutdown sentinel, written `none`. -/
abbrev event_type := Option Callback

/-- The state of the event loop: the static run flag, the queue, the callbacks invoked so
far in order, and whether the loop is blocked in `wait_and_pop` on an empty queue (it has
returned when it is neither running nor waiting). -/
structure LoopState where
  ms_keep_running : Bool
  m_event_queue : List event_type
  invoked : List Callback
  waiting : Bool
  deriving DecidableEq

/-- Embedding of `StrategyBase::_startEventLoop` on a queue with the given contents:
`while (ms_keep_running)` pop the head; the null task clears the flag, any other task is
invoked.  `clears task` tells whether the invoked callback itself clears the run flag. -/
def _startEventLoop (clears : Callback → Bool) :
    List event_type → Bool → List Callback → LoopState
  | queue, false, invoked => ⟨false, queue, invoked, false⟩
  | [], true, invoked => ⟨true, [], invoked, true⟩
  | none :: rest, true, invoked => _startEventLoop clears rest false invoked
  | some task :: rest, true, invoked =>
    _startEventLoop clears rest (!clears task) (invoked ++ [task])

/-- Modelled from the spec: `KRecord`, one bar; the tick handler reads only its timestamp,
which may be the null `Datetime` (`none`). -/
structure KRecord where
  datetime : Option Datetime
  deriving DecidableEq

/-- The bar data of the instruments, as read through `Stock::getCount` and
`Stock::getKRecord`. -/
structure KDataSource where
  getCount : Stock → KType → Nat
  getKRecord : Stock → Nat → KType → KRecord

/-- The members of `StrategyBase` the tick handler reads or writes: the instrument
universe, the timeframes returned by `getKTypeList()`, the recorded latest bar time per
timeframe (`m_ref_last_time`, a map whose missing entries read as the default value) and
the event queue. -/
structure StrategyBase where
  m_stock_list : List Stock
  ktype_list : List KType
  m_ref_last_time : KType → Option Datetime
  m_event_queue : List event_type

/-- Modelled from the spec: `event(task)`, declared in the header, pushes the task at the
back of the event queue. -/
def event (s : StrategyBase) (task : Callback) : StrategyBase :=
  { s with m_event_queue := s.m_event_queue ++ [some task] }

/-- The body of the loop over the timeframes in `finishReceivedSpot`. -/
def finishReceivedSpotStep (kd : KDataSource) (ref_stk : Stock) (s : StrategyBase)
    (ktype : KType) : StrategyBase :=
  let count := kd.getCount ref_stk ktype
  if count > 0 then
    let k := kd.getKRecord ref_stk (count - 1) ktype
    if k.datetime ≠ s.m_ref_last_time ktype then
      event
        { s with
          m_ref_last_time := fun j => if j = ktype then k.datetime else s.m_ref_last_time j }
        (.onBar ktype)
    else s
  else s

/-- Embedding of `StrategyBase::finishReceivedSpot`. -/
def finishReceivedSpot (kd : KDataSource) (s : StrategyBase) (_revTime : Datetime) :
    StrategyBase :=
  match s.m_stock_list with
  | [] => s
  | ref_stk :: _ => s.ktype_list.foldl (finishReceivedSpotStep kd ref_stk) (event s .onTick)

/-- Modelled from the spec: `MarketInfo`, of which the timer registration reads the open and
close time of the two sessions. -/
structure MarketInfo where
  openTime1 : TimeDelta
  closeTime1 : TimeDelta
  openTime2 : TimeDelta
  closeTime2 : TimeDelta
  deriving DecidableEq

/-- The date bounds `Datetime::min()` and `Datetime::max()` passed to the scheduler. -/
inductive DateBound where
  | min
  | max
  deriving DecidableEq

/-- What a timer does when it fires: put a closure calling the callback on the event queue
(`this->event(...)`), or call the callback itself. -/
inductive TimerAction where
  | enqueue (task : Callback)
  | invoke (task : Callback)
  deriving DecidableEq

/-- A registration made on the scheduler: `addFuncAtTimeEveryDay(time, f)` or
`addFunc(start_date, end_date, start_time, end_time, repeat_num, delta, f)`. -/
inductive Registration where
  | addFuncAtTimeEveryDay (time : TimeDelta) (f : TimerAction)
  | addFunc (start_date end_date : DateBound) (start_time end_time : TimeDelta)
      (repeat_num : Int) (delta : TimeDelta) (f : TimerAction)
  deriving DecidableEq

/-- The conversion `static_cast<int>` of the quotient of two durations: the value itself
when it fits a 32-bit `int`.  Outside that range the C++ conversion is undefined; the value
that the x86-64 conversion instruction delivers then, the least `int` -2^31, stands in
for it. -/
def static_cast_int (x : Int) : Int :=
  if -(2 ^ 31) ≤ x ∧ x < 2 ^ 31 then x else -(2 ^ 31)

/-- Embedding of `StrategyBase::_addClockEvent`: the registrations it makes.  `getParam`
reads the boolean strategy parameters; the quotient of the two durations is truncated
toward zero. -/
def _addClockEvent (getParam : String → Bool) (enable : String) (delta : TimeDelta)
    (openTime closeTime : TimeDelta) : List Registration :=
  if getParam enable then
    let repeat_num := static_cast_int (Int.tdiv (closeTime - openTime) delta)
    [.addFunc .min .max openTime closeTime repeat_num delta (.invoke (.onClock delta))]
  else []

/-- The body of the loop over `market_set` in `_addTimer`: the two sessions of one market
update the pair (openTime, closeTime). -/
def windowStep (w : TimeDelta × TimeDelta) (market_info : MarketInfo) : TimeDelta × TimeDelta :=
  let w1 : TimeDelta × TimeDelta :=
    if market_info.openTime1 < market_info.closeTime1 then
      (if market_info.openTime1 < w.1 then market_info.openTime1 else w.1,
        if market_info.closeTime1 > w.2 then market_info.closeTime1 else w.2)
    else w
  if market_info.openTime2 < market_info.closeTime2 then
    (if market_info.openTime2 < w1.1 then market_info.openTime2 else w1.1,
      if market_info.closeTime2 > w1.2 then market_info.closeTime2 else w1.2)
  else w1

/-- The pair (openTime, closeTime) `_addTimer` derives from the markets in `market_set`,
visited in the given order, starting from (23:59:59.999999, 0). -/
def tradingWindow (getMarketInfo : String → MarketInfo) (market_set : List String) :
    TimeDelta × TimeDelta :=
  market_set.foldl (fun w market => windowStep w (getMarketInfo market))
    (TimeDelta.new 0 23 59 59 999 999, TimeDelta.new 0 0 0 0 0 0)

/-- Embedding of `StrategyBase::_addTimer`: the registrations it makes on the scheduler, in
order.  `market_set` holds each market of `m_stock_list` once. -/
def _addTimer (getMarketInfo : String → MarketInfo) (getParam : String → Bool)
    (m_stock_list : List Stock) : List Registration :=
  let market_set := (m_stock_list.map fun stk => stk.market).dedup
  let w := tradingWindow getMarketInfo market_set
  let openTime := w.1
  let closeTime := w.2
  if openTime ≥ closeTime then []
  else
    (if getParam "enable_market_event" then
      [.addFuncAtTimeEveryDay openTime (.enqueue .onMarketOpen),
        .addFuncAtTimeEveryDay closeTime (.enqueue .onMarketClose)]
    else [])
    ++ _addClockEvent getParam "enable_30_seconds_clock" (Seconds 30) openTime closeTime
    ++ _addClockEvent getParam "enable_1min_clock" (Minutes 1) openTime closeTime
    ++ _addClockEvent getParam "enable_3min_clock" (Minutes 3) openTime closeTime
    ++ _addClockEvent getParam "enable_5min_clock" (Minutes 5) openTime closeTime
    ++ _addClockEvent getParam "enable_10min_clock" (Minutes 10) openTime closeTime
    ++ _addClockEvent getParam "enable_15min_clock" (Minutes 15) openTime closeTime
    ++ _addClockEvent getParam "enable_30min_clock" (Minutes 30) openTime closeTime
    ++ _addClockEvent getParam "enable_60min_clock" (Minutes 60) openTime closeTime
    ++ _addClockEvent getParam "enable_2hour_clock" (Hours 2) openTime closeTime

/-- A market whose two sessions both have open = close = 0 (no session with open before
close). -/
def exClosedMarket : MarketInfo :=
  { openTime1 := 0, closeTime1 := 0, openTime2 := 0, closeTime2 := 0 }

/-- A market with the sessions 09:30-11:30 and 13:00-15:00. -/
def exMarket : MarketInfo :=
  { openTime1 := TimeDelta.new 0 9 30 0 0 0, closeTime1 := TimeDelta.new 0 11 30 0 0 0,
    openTime2 := TimeDelta.new 0 13 0 0 0 0, closeTime2 := TimeDelta.new 0 15 0 0 0 0 }

/-- The two sessions (open, close) of a market. -/
def sessionsOf (market_info : MarketInfo) : List (TimeDelta × TimeDelta) :=
  [(market_info.openTime1, market_info.closeTime1),
    (market_info.openTime2, market_info.closeTime2)]

/-- The sessions of the given markets whose open is strictly before their close. -/
def validSessions (getMarketInfo : String → MarketInfo) (market_set : List String) :
    List (TimeDelta × TimeDelta) :=
  (market_set.flatMap fun market => sessionsOf (getMarketInfo market)).filter
    fun s => decide (s.1 < s.2)

/-- A market whose first session is 25:00-26:00, outside the day, and whose second session
is empty. -/
def exLateMarket : MarketInfo :=
  { openTime1 := TimeDelta.new 0 25 0 0 0 0, closeTime1 := TimeDelta.new 0 26 0 0 0 0,
    openTime2 := 0, closeTime2 := 0 }

/-- Bar data in which every instrument has two daily bars, stamped 0 and 1, and no bar in
any other timeframe. -/
def exKData : KDataSource :=
  { getCount := fun _ ktype => if ktype = "DAY" then 2 else 0
    getKRecord := fun _ pos _ => ⟨some (pos : Int)⟩ }

/-- A strategy with two instruments, the timeframes DAY and MIN5, no recorded bar time and an
empty event queue. -/
def exStrategy : StrategyBase :=
  { m_stock_list := [exStock, exStock2], ktype_list := ["DAY", "MIN5"],
    m_ref_last_time := fun _ => none, m_event_queue := [] }

/-! ## The cash path of `buy` in binary64 arithmetic -/

/-- Rounding of a rational to the nearest integer, a tie going to the even one. -/
def roundHalfEven (y : ℚ) : Int :=
  if y - ⌊y⌋ < 1 / 2 then ⌊y⌋
  else if 1 / 2 < y - ⌊y⌋ then ⌊y⌋ + 1
  else if ⌊y⌋ % 2 = 0 then ⌊y⌋ else ⌊y⌋ + 1

/-- The exponent of the binary64 spacing at `q`: values keep 53 significant bits, and below
2^-1022 the spacing stays 2^-1074. -/
def ulpExp64 (q : ℚ) : Int := max (Int.log 2 |q|) (-1022) - 52

/-- The value of the C++ type `double` (IEEE 754 binary64, round to nearest, ties to even)
that stands for the rational `q`; magnitudes of 2^1024 and more, which overflow, are outside
the model. -/
def rnd64 (q : ℚ) : ℚ :=
  (roundHalfEven (q / (2 : ℚ) ^ ulpExp64 q) : ℚ) * (2 : ℚ) ^ ulpExp64 q

/-- The sum of two doubles. -/
def add64 (a b : ℚ) : ℚ := rnd64 (a + b)

/-- The difference of two doubles. -/
def sub64 (a b : ℚ) : ℚ := rnd64 (a - b)

/-- The product of two doubles. -/
def mul64 (a b : ℚ) : ℚ := rnd64 (a * b)

/-- Modelled from the spec: `roundEx` on doubles, the decimal rounding (to nearest, ties away
from zero) of the value, delivered as a double. -/
def roundEx64 (x : ℚ) (ndigits : Int) : ℚ := rnd64 (roundQ x ndigits)

/-- Embedding of the cash path of `OrderTradeManager::buy` (from
`price_t money = roundEx(...)` to `m_cash = roundEx(...)`) with the arithmetic of `double` on
finite values: `none` when the affordability check returns the INVALID record, else the new
value of `m_cash`. -/
def buyCash64 (m_cash realPrice number unit costTotal : ℚ) (precision : Int) : Option ℚ :=
  let money := roundEx64 (mul64 (mul64 realPrice number) unit) precision
  if m_cash < roundEx64 (add64 money costTotal) precision then none
  else some (roundEx64 (sub64 (sub64 m_cash money) costTotal) precision)

/-! ## Basic facts about doubles and the position map -/

@[simp]
theorem Dbl.fin_add_fin (a b : ℚ) : Dbl.fin a + Dbl.fin b = Dbl.fin (a + b) := rfl
@[simp]
theorem Dbl.fin_sub_fin (a b : ℚ) : Dbl.fin a - Dbl.fin b = Dbl.fin (a - b) := rfl
@[simp]
theorem Dbl.fin_mul_fin (a b : ℚ) : Dbl.fin a * Dbl.fin b = Dbl.fin (a * b) := rfl
@[simp]
theorem Dbl.nan_add (a : Dbl) : Dbl.nan + a = Dbl.nan := rfl
@[simp]
theorem Dbl.nan_sub (a : Dbl) : Dbl.nan - a = Dbl.nan := rfl
@[simp]
theorem Dbl.nan_mul (a : Dbl) : Dbl.nan * a = Dbl.nan := rfl
@[simp]
theorem Dbl.add_nan (a : Dbl) : a + Dbl.nan = Dbl.nan := by cases a <;> rfl
@[simp]
theorem Dbl.sub_nan (a : Dbl) : a - Dbl.nan = Dbl.nan := by cases a <;> rfl
@[simp]
theorem Dbl.mul_nan (a : Dbl) : a * Dbl.nan = Dbl.nan := by cases a <;> rfl
@[simp]
theorem Dbl.lt_fin_fin (a b : ℚ) : Dbl.lt (.fin a) (.fin b) = decide (a < b) := rfl
@[simp]
theorem Dbl.le_fin_fin (a b : ℚ) : Dbl.le (.fin a) (.fin b) = decide (a ≤ b) := rfl
@[simp]
theorem Dbl.eq_fin_fin (a b : ℚ) : Dbl.eq (.fin a) (.fin b) = decide (a = b) := rfl
@[simp]
theorem Dbl.lt_nan_left (a : Dbl) : Dbl.lt .nan a = false := rfl
@[simp]
theorem Dbl.lt_nan_right (a : Dbl) : Dbl.lt a .nan = false := by cases a <;> rfl
@[simp]
theorem Dbl.le_nan_left (a : Dbl) : Dbl.le .nan a = false := rfl
@[simp]
theorem Dbl.le_nan_right (a : Dbl) : Dbl.le a .nan = false := by cases a <;> rfl
@[simp]
theorem Dbl.eq_nan_left (a : Dbl) : Dbl.eq .nan a = false := rfl
@[simp]
theorem Dbl.eq_nan_right (a : Dbl) : Dbl.eq a .nan = false := by cases a <;> rfl
@[simp]
theorem roundEx_fin (q : ℚ) (n : Int) : roundEx (.fin q) n = .fin (roundQ q n) := rfl
@[simp]
theorem roundEx_nan (n : Int) : roundEx .nan n = .nan := rfl

theorem Dbl.ne_eq_true_iff (a b : Dbl) : Dbl.ne a b = true ↔ Dbl.eq a b = false := by
  simp [Dbl.ne]

/-- The program's `==` on the difference: `a - b == 0` exactly when `b == a`. -/
theorem Dbl.eq_sub_zero (a b : Dbl) : Dbl.eq (a - b) (.fin 0) = Dbl.eq b a := by
  cases a <;> cases b <;> simp [sub_eq_zero, eq_comm]

@[simp]
theorem mapFind_mapAssign_self (k : Nat) (v : PositionRecord) (m : position_map_type) :
    mapFind k (mapAssign k v m) = some v := by
  induction m with
  | nil => simp [mapAssign, mapFind]
  | cons kv rest ih =>
    obtain ⟨k1, v1⟩ := kv
    by_cases hk : k1 = k <;> simp [mapAssign, mapFind, hk, ih]

@[simp]
theorem mapFind_mapErase_self (k : Nat) (m : position_map_type) :
    mapFind k (mapErase k m) = none := by
  induction m with
  | nil => simp [mapErase, mapFind]
  | cons kv rest ih =>
    obtain ⟨k1, v1⟩ := kv
    by_cases hk : k1 = k <;> simp [mapErase, mapFind, hk, ih]

theorem mapFind_mapAssign_other (k j : Nat) (v : PositionRecord) (m : position_map_type)
    (h : j ≠ k) : mapFind j (mapAssign k v m) = mapFind j m := by
  induction m with
  | nil => simp [mapAssign, mapFind, h.symm]
  | cons kv rest ih =>
    obtain ⟨k1, v1⟩ := kv
    by_cases hk : k1 = k
    · subst hk; simp [mapAssign, mapFind, h.symm]
    · by_cases hj : k1 = j <;> simp [mapAssign, mapFind, hk, hj, ih, h]

theorem mapFind_mapErase_other (k j : Nat) (m : position_map_type) (h : j ≠ k) :
    mapFind j (mapErase k m) = mapFind j m := by
  induction m with
  | nil => simp [mapErase, mapFind]
  | cons kv rest ih =>
    obtain ⟨k1, v1⟩ := kv
    by_cases hk : k1 = k
    · subst hk; simp [mapErase, mapFind, h.symm, ih]
    · by_cases hj : k1 = j <;> simp [mapErase, mapFind, hk, hj, ih, h]

/-! ## The two paths of `buy` and `sell` -/

/-- Every call of `buy` either takes one of the six rejecting returns, giving the INVALID
record and the untouched ledger, or passes all six checks and is `buyFill`. -/
theorem buy_cases (tm : OrderTradeManager) (datetime : Datetime) (stock : Stock)
    (realPrice : price_t) (number : Dbl) (stoploss goalPrice planPrice : price_t)
    (fromPart : SystemPart) :
    (buy tm datetime stock realPrice number stoploss goalPrice planPrice fromPart
        = ⟨Null_TradeRecord, tm, []⟩ ∧
      (stock.isNull = true ∨ datetime < lastDatetime tm ∨ Dbl.eq number (.fin 0) = true ∨
        Dbl.lt number (.fin stock.minTradeNumber) = true ∨
        Dbl.gt number (.fin stock.maxTradeNumber) = true ∨
        Dbl.lt tm.m_cash (roundEx (roundEx (realPrice * number * .fin stock.unit) tm.precision
          + (getBuyCost tm datetime stock realPrice number).total) tm.precision) = true)) ∨
    (buy tm datetime stock realPrice number stoploss goalPrice planPrice fromPart
        = buyFill tm datetime stock realPrice number stoploss goalPrice planPrice fromPart
            (getBuyCost tm datetime stock realPrice number) tm.precision
            (roundEx (realPrice * number * .fin stock.unit) tm.precision) ∧
      stock.isNull = false ∧ ¬ datetime < lastDatetime tm ∧ Dbl.eq number (.fin 0) = false ∧
        Dbl.lt number (.fin stock.minTradeNumber) = false ∧
        Dbl.gt number (.fin stock.maxTradeNumber) = false ∧
        Dbl.lt tm.m_cash (roundEx (roundEx (realPrice * number * .fin stock.unit) tm.precision
          + (getBuyCost tm datetime stock realPrice number).total) tm.precision) = false) := by
  unfold buy
  simp only []
  split_ifs <;> simp_all [Null_TradeRecord]

/-- Every call of `sell` with a numeric `number` either takes one of the rejecting returns,
giving the default record and the untouched ledger, or passes all checks and is `sellFill`. -/
theorem sell_cases (tm : OrderTradeManager) (datetime : Datetime) (stock : Stock)
    (realPrice : price_t) (number : Dbl) (stoploss goalPrice planPrice : price_t)
    (fromPart : SystemPart) (hn : number.isnan = false) :
    (sell tm datetime stock realPrice number stoploss goalPrice planPrice fromPart
        = some ⟨Null_TradeRecord, tm, []⟩ ∧
      (stock.isNull = true ∨ datetime < lastDatetime tm ∨ Dbl.eq number (.fin 0) = true ∨
        Dbl.lt number (.fin stock.minTradeNumber) = true ∨
        (Dbl.ne number MAX_DOUBLE = true ∧ Dbl.gt number (.fin stock.maxTradeNumber) = true) ∨
        mapFind stock.id tm.m_position = none ∨
        ∃ position, mapFind stock.id tm.m_position = some position ∧
          Dbl.lt position.number
            (if Dbl.eq number MAX_DOUBLE then position.number else number) = true)) ∨
    (∃ position, mapFind stock.id tm.m_position = some position ∧
      sell tm datetime stock realPrice number stoploss goalPrice planPrice fromPart
        = some (sellFill tm datetime stock realPrice stoploss goalPrice planPrice fromPart
            position (if Dbl.eq number MAX_DOUBLE then position.number else number)) ∧
      stock.isNull = false ∧ ¬ datetime < lastDatetime tm ∧ Dbl.eq number (.fin 0) = false ∧
        Dbl.lt number (.fin stock.minTradeNumber) = false ∧
        ¬ (Dbl.ne number MAX_DOUBLE = true ∧ Dbl.gt number (.fin stock.maxTradeNumber) = true) ∧
        Dbl.lt position.number
            (if Dbl.eq number MAX_DOUBLE then position.number else number) = false) := by
  unfold sell
  cases hp : mapFind stock.id tm.m_position with
  | none => simp only []; split_ifs <;> simp_all
  | some position =>
    simp only [hn]
    by_cases h1 : stock.isNull = true
    · simp [h1]
    by_cases h2 : datetime < lastDatetime tm
    · simp [h1, h2]
    by_cases h3 : Dbl.eq number (.fin 0) = true
    · simp [h1, h2, h3]
    by_cases h4 : Dbl.lt number (.fin stock.minTradeNumber) = true
    · simp [h1, h2, h3, h4]
    by_cases h5 : (Dbl.ne number MAX_DOUBLE && Dbl.gt number (.fin stock.maxTradeNumber)) = true
    · simp only [Bool.and_eq_true] at h5
      simp [h1, h2, h3, h4, h5]
    by_cases h6 : Dbl.lt position.number
            (if Dbl.eq number MAX_DOUBLE then position.number else number) = true
    · simp [h1, h2, h3, h4, h5, h6]
    · simp only [Bool.and_eq_true] at h5
      simp [h1, h2, h3, h4, h5, h6]

theorem buyFill_record (tm : OrderTradeManager) (datetime : Datetime) (stock : Stock)
    (realPrice : price_t) (number : Dbl) (stoploss goalPrice planPrice : price_t)
    (fromPart : SystemPart) (cost : CostRecord) (precision : Int) (money : price_t) :
    (buyFill tm datetime stock realPrice number stoploss goalPrice planPrice fromPart cost
      precision money).record
      = ⟨stock, some datetime, .BUSINESS_BUY, planPrice, realPrice, goalPrice, number, cost,
          stoploss, roundEx (tm.m_cash - money - cost.total) precision, fromPart⟩ := by
  unfold buyFill
  simp only []
  split_ifs <;> rfl

theorem buyFill_cash (tm : OrderTradeManager) (datetime : Datetime) (stock : Stock)
    (realPrice : price_t) (number : Dbl) (stoploss goalPrice planPrice : price_t)
    (fromPart : SystemPart) (cost : CostRecord) (precision : Int) (money : price_t) :
    (buyFill tm datetime stock realPrice number stoploss goalPrice planPrice fromPart cost
      precision money).tm.m_cash = roundEx (tm.m_cash - money - cost.total) precision := by
  unfold buyFill
  simp only []
  split_ifs <;> rfl

theorem buyFill_position (tm : OrderTradeManager) (datetime : Datetime) (stock : Stock)
    (realPrice : price_t) (number : Dbl) (stoploss goalPrice planPrice : price_t)
    (fromPart : SystemPart) (cost : CostRecord) (precision : Int) (money : price_t) :
    (buyFill tm datetime stock realPrice number stoploss goalPrice planPrice fromPart cost
      precision money).tm.m_position
      = match mapFind stock.id tm.m_position with
        | none =>
          mapAssign stock.id
            ⟨stock, datetime, none, number, stoploss, goalPrice, number, money, cost.total,
              roundEx ((realPrice - stoploss) * number * .fin stock.unit) precision, .fin 0⟩
            tm.m_position
        | some position =>
          mapAssign stock.id
            { position with
              number := position.number + number
              stoploss := stoploss
              goalPrice := goalPrice
              totalNumber := position.totalNumber + number
              buyMoney := roundEx (money + position.buyMoney) precision
              totalCost := roundEx (cost.total + position.totalCost) precision
              totalRisk :=
                roundEx (position.totalRisk + (realPrice - stoploss) * number * .fin stock.unit)
                  precision }
            tm.m_position := by
  unfold buyFill
  simp only []
  split_ifs <;> rfl

theorem buyFill_last_datetime (tm : OrderTradeManager) (datetime : Datetime) (stock : Stock)
    (realPrice : price_t) (number : Dbl) (stoploss goalPrice planPrice : price_t)
    (fromPart : SystemPart) (cost : CostRecord) (precision : Int) (money : price_t) :
    (buyFill tm datetime stock realPrice number stoploss goalPrice planPrice fromPart cost
      precision money).tm.m_last_datetime = tm.m_last_datetime := by
  unfold buyFill
  simp only []
  split_ifs <;> rfl

theorem sellFill_record (tm : OrderTradeManager) (datetime : Datetime) (stock : Stock)
    (realPrice : price_t) (stoploss goalPrice planPrice : price_t) (fromPart : SystemPart)
    (position : PositionRecord) (real_number : Dbl) :
    (sellFill tm datetime stock realPrice stoploss goalPrice planPrice fromPart position
      real_number).record
      = ⟨stock, some datetime, .BUSINESS_SELL, planPrice, realPrice, goalPrice, real_number,
          getSellCost tm datetime stock realPrice real_number, stoploss,
          roundEx (tm.m_cash + roundEx (realPrice * real_number * .fin stock.unit) tm.precision
            - (getSellCost tm datetime stock realPrice real_number).total) tm.precision,
          fromPart⟩ := by
  unfold sellFill
  simp only []
  split_ifs <;> rfl

theorem sellFill_cash (tm : OrderTradeManager) (datetime : Datetime) (stock : Stock)
    (realPrice : price_t) (stoploss goalPrice planPrice : price_t) (fromPart : SystemPart)
    (position : PositionRecord) (real_number : Dbl) :
    (sellFill tm datetime stock realPrice stoploss goalPrice planPrice fromPart position
      real_number).tm.m_cash
      = roundEx (tm.m_cash + roundEx (realPrice * real_number * .fin stock.unit) tm.precision
          - (getSellCost tm datetime stock realPrice real_number).total) tm.precision := by
  unfold sellFill
  simp only []
  split_ifs <;> rfl

theorem sellFill_position (tm : OrderTradeManager) (datetime : Datetime) (stock : Stock)
    (realPrice : price_t) (stoploss goalPrice planPrice : price_t) (fromPart : SystemPart)
    (position : PositionRecord) (real_number : Dbl) :
    (sellFill tm datetime stock realPrice stoploss goalPrice planPrice fromPart position
      real_number).tm.m_position
      = if Dbl.eq (position.number - real_number) (.fin 0) then mapErase stock.id tm.m_position
        else
          mapAssign stock.id
            { position with
              number := position.number - real_number
              stoploss := stoploss
              goalPrice := goalPrice
              totalCost :=
                roundEx (position.totalCost
                  + (getSellCost tm datetime stock realPrice real_number).total) tm.precision
              sellMoney :=
                roundEx (position.sellMoney
                  + roundEx (realPrice * real_number * .fin stock.unit) tm.precision)
                  tm.precision }
            tm.m_position := by
  unfold sellFill
  simp only []
  split_ifs <;> rfl

theorem sellFill_last_datetime (tm : OrderTradeManager) (datetime : Datetime) (stock : Stock)
    (realPrice : price_t) (stoploss goalPrice planPrice : price_t) (fromPart : SystemPart)
    (position : PositionRecord) (real_number : Dbl) :
    (sellFill tm datetime stock realPrice stoploss goalPrice planPrice fromPart position
      real_number).tm.m_last_datetime = tm.m_last_datetime := by
  unfold sellFill
  simp only []
  split_ifs <;> rfl

/-! ## Evaluation of the example ledger -/

theorem exLedger_buy_eq :
    buy exLedger 10 exStock (.fin 10) (.fin 100) (.fin 9) (.fin 12) (.fin 10) 0
      = buyFill exLedger 10 exStock (.fin 10) (.fin 100) (.fin 9) (.fin 12) (.fin 10) 0
          ⟨.fin 5, .fin 0, .fin 0, .fin 0, .fin 5⟩ 2 (.fin 1000) := by
  norm_num [buy, exLedger, exStock, fixedCost, OrderTradeManager.new, lastDatetime, Dbl.gt,
    getBuyCost, roundQ]

theorem exLedger1_cash : exLedger1.m_cash = .fin 98995 := by
  rw [exLedger1, exLedger_buy_eq, buyFill_cash]
  norm_num [exLedger, OrderTradeManager.new, roundQ]

theorem exLedger1_position :
    exLedger1.m_position
      = [(1, ⟨exStock, 10, none, .fin 100, .fin 9, .fin 12, .fin 100, .fin 1000, .fin 5,
          .fin 100, .fin 0⟩)] := by
  rw [exLedger1, exLedger_buy_eq, buyFill_position]
  norm_num [exLedger, exStock, OrderTradeManager.new, roundQ, mapFind, mapAssign]

theorem exLedger1_last_datetime : exLedger1.m_last_datetime = 0 := by
  rw [exLedger1, exLedger_buy_eq, buyFill_last_datetime]
  rfl

theorem exLedger1_precision : exLedger1.precision = 2 := by
  rw [exLedger1, exLedger_buy_eq]; unfold buyFill; simp only []; split_ifs <;> rfl

theorem exLedger1_costfunc : exLedger1.m_costfunc = fixedCost 5 (11 / 2) := by
  rw [exLedger1, exLedger_buy_eq]; unfold buyFill; simp only []; split_ifs <;> rfl

theorem exLedger1_sell_all_eq :
    sell exLedger1 20 exStock (.fin 11) MAX_DOUBLE (.fin 9) (.fin 12) (.fin 11) 0
      = some exSellAll := by
  have h1 := exLedger1_position
  have h2 := exLedger1_last_datetime
  norm_num [sell, h1, h2, lastDatetime, mapFind, Dbl.isnan, Dbl.ne, Dbl.gt, MAX_DOUBLE, exStock,
    exSellAll, exPosition]

/-- C1. An accepted buy leaves cash at `round(oldCash - notional - cost.total, precision)`, with
`notional = round(realPrice * number * unit, precision)` and `cost` the cost model's buy
cost, and the returned record carries that cash. -/
theorem buy_cash_conservation (tm : OrderTradeManager) (datetime : Datetime) (stock : Stock)
    (realPrice : price_t) (number : Dbl) (stoploss goalPrice planPrice : price_t)
    (fromPart : SystemPart)
    (h : (buy tm datetime stock realPrice number stoploss goalPrice planPrice
      fromPart).record.business = .BUSINESS_BUY) :
    (buy tm datetime stock realPrice number stoploss goalPrice planPrice fromPart).tm.m_cash
      = roundEx (tm.m_cash - roundEx (realPrice * number * .fin stock.unit) tm.precision
          - (getBuyCost tm datetime stock realPrice number).total) tm.precision
    ∧ (buy tm datetime stock realPrice number stoploss goalPrice planPrice fromPart).record.cash
      = (buy tm datetime stock realPrice number stoploss goalPrice planPrice fromPart).tm.m_cash := by
  rcases buy_cases tm datetime stock realPrice number stoploss goalPrice planPrice fromPart with
    ⟨hb, _⟩ | ⟨hb, _⟩
  · rw [hb] at h; simp [Null_TradeRecord] at h
  · rw [hb, buyFill_cash, buyFill_record]
    exact ⟨rfl, rfl⟩

theorem buy_cash_conservation_witness :
    (buy exLedger 10 exStock (.fin 10) (.fin 100) (.fin 9) (.fin 12) (.fin 10)
      0).record.business = .BUSINESS_BUY ∧
    (buy exLedger 10 exStock (.fin 10) (.fin 100) (.fin 9) (.fin 12) (.fin 10) 0).tm.m_cash
      = roundEx (exLedger.m_cash
          - roundEx (Dbl.fin 10 * Dbl.fin 100 * .fin exStock.unit) exLedger.precision
          - (getBuyCost exLedger 10 exStock (.fin 10) (.fin 100)).total) exLedger.precision
    ∧ (buy exLedger 10 exStock (.fin 10) (.fin 100) (.fin 9) (.fin 12) (.fin 10) 0).record.cash
      = (buy exLedger 10 exStock (.fin 10) (.fin 100) (.fin 9) (.fin 12) (.fin 10) 0).tm.m_cash :=
  ⟨by rw [exLedger_buy_eq, buyFill_record],
    buy_cash_conservation exLedger 10 exStock (.fin 10) (.fin 100) (.fin 9) (.fin 12) (.fin 10) 0
      (by rw [exLedger_buy_eq, buyFill_record])⟩

/-- C2. An accepted sell leaves cash at `round(oldCash + proceeds - cost.total, precision)`, with
`proceeds = round(realPrice * soldNumber * unit, precision)`, `soldNumber` the requested number
or, for the sell-all sentinel, the whole holding, and `cost` the cost model's sell cost for
`soldNumber`; the returned record carries `soldNumber` and that cash. -/
theorem sell_cash_conservation (tm : OrderTradeManager) (datetime : Datetime) (stock : Stock)
    (realPrice : price_t) (number : Dbl) (stoploss goalPrice planPrice : price_t)
    (fromPart : SystemPart) (o : Outcome)
    (h : sell tm datetime stock realPrice number stoploss goalPrice planPrice fromPart = some o)
    (hs : o.record.business = .BUSINESS_SELL) :
    ∃ position soldNumber, mapFind stock.id tm.m_position = some position ∧
      soldNumber = (if Dbl.eq number MAX_DOUBLE then position.number else number) ∧
      o.tm.m_cash = roundEx (tm.m_cash
          + roundEx (realPrice * soldNumber * .fin stock.unit) tm.precision
          - (getSellCost tm datetime stock realPrice soldNumber).total) tm.precision ∧
      o.record.number = soldNumber ∧
      o.record.cash = o.tm.m_cash := by
  have hn : number.isnan = false := by
    cases hnan : number.isnan
    · rfl
    · simp [sell, hnan] at h
  rcases sell_cases tm datetime stock realPrice number stoploss goalPrice planPrice fromPart hn
    with ⟨hb, _⟩ | ⟨position, hp, hb, _⟩
  · rw [hb] at h
    simp only [Option.some.injEq] at h
    subst h
    simp [Null_TradeRecord] at hs
  · rw [hb] at h
    simp only [Option.some.injEq] at h
    subst h
    refine ⟨position, _, hp, rfl, ?_, ?_, ?_⟩
    · rw [sellFill_cash]
    · rw [sellFill_record]
    · rw [sellFill_cash, sellFill_record]

theorem sell_cash_conservation_witness :
    sell exLedger1 20 exStock (.fin 11) MAX_DOUBLE (.fin 9) (.fin 12) (.fin 11) 0
      = some exSellAll ∧
    exSellAll.record.business = .BUSINESS_SELL ∧
    ∃ position soldNumber, mapFind exStock.id exLedger1.m_position = some position ∧
      soldNumber = (if Dbl.eq MAX_DOUBLE MAX_DOUBLE then position.number else MAX_DOUBLE) ∧
      exSellAll.tm.m_cash = roundEx (exLedger1.m_cash
          + roundEx (Dbl.fin 11 * soldNumber * .fin exStock.unit) exLedger1.precision
          - (getSellCost exLedger1 20 exStock (.fin 11) soldNumber).total) exLedger1.precision ∧
      exSellAll.record.number = soldNumber ∧
      exSellAll.record.cash = exSellAll.tm.m_cash :=
  ⟨exLedger1_sell_all_eq, by rw [exSellAll, sellFill_record],
    sell_cash_conservation exLedger1 20 exStock (.fin 11) MAX_DOUBLE (.fin 9) (.fin 12) (.fin 11)
      0 exSellAll exLedger1_sell_all_eq (by rw [exSellAll, sellFill_record])⟩

/-! ## The last-operation time -/

theorem checkin_last_datetime (tm : OrderTradeManager) (datetime : Datetime) (cash : price_t) :
    (checkin tm datetime cash).2.m_last_datetime = tm.m_last_datetime := by
  unfold checkin
  split_ifs <;> rfl

theorem buy_last_datetime (tm : OrderTradeManager) (datetime : Datetime) (stock : Stock)
    (realPrice : price_t) (number : Dbl) (stoploss goalPrice planPrice : price_t)
    (fromPart : SystemPart) :
    (buy tm datetime stock realPrice number stoploss goalPrice planPrice
      fromPart).tm.m_last_datetime = tm.m_last_datetime := by
  rcases buy_cases tm datetime stock realPrice number stoploss goalPrice planPrice fromPart with
    ⟨hb, _⟩ | ⟨hb, _⟩
  · rw [hb]
  · rw [hb, buyFill_last_datetime]

theorem step_last_datetime (tm : OrderTradeManager) (op : Op) :
    (step tm op).m_last_datetime = tm.m_last_datetime := by
  cases op with
  | checkin datetime cash => exact checkin_last_datetime tm datetime cash
  | buy datetime stock realPrice number stoploss goalPrice planPrice fromPart =>
    exact buy_last_datetime tm datetime stock realPrice number stoploss goalPrice planPrice
      fromPart
  | sell datetime stock realPrice number stoploss goalPrice planPrice fromPart =>
    simp only [step]
    cases hn : number.isnan
    · rcases sell_cases tm datetime stock realPrice number stoploss goalPrice planPrice fromPart
        hn with ⟨hb, _⟩ | ⟨position, _, hb, _⟩
      · rw [hb]
      · rw [hb]
        exact sellFill_last_datetime tm datetime stock realPrice stoploss goalPrice planPrice
          fromPart position _
    · simp [sell, hn]

theorem run_last_datetime (ops : List Op) (tm : OrderTradeManager) :
    (run tm ops).m_last_datetime = tm.m_last_datetime := by
  induction ops generalizing tm with
  | nil => rfl
  | cons op rest ih =>
    simp only [run, List.foldl_cons] at ih ⊢
    rw [ih, step_last_datetime]

theorem exLedger1_buy_eq :
    buy exLedger1 5 exStock (.fin 10) (.fin 100) (.fin 9) (.fin 12) (.fin 10) 0
      = buyFill exLedger1 5 exStock (.fin 10) (.fin 100) (.fin 9) (.fin 12) (.fin 10) 0
          ⟨.fin 5, .fin 0, .fin 0, .fin 0, .fin 5⟩ 2 (.fin 1000) := by
  have h1 := exLedger1_cash
  have h2 := exLedger1_last_datetime
  have h3 := exLedger1_precision
  have h4 := exLedger1_costfunc
  norm_num [buy, h1, h2, h3, h4, exStock, fixedCost, lastDatetime, Dbl.gt, getBuyCost, roundQ]

theorem exLedger1_sell_early_eq :
    sell exLedger1 5 exStock (.fin 11) (.fin 100) (.fin 9) (.fin 12) (.fin 11) 0
      = some (sellFill exLedger1 5 exStock (.fin 11) (.fin 9) (.fin 12) (.fin 11) 0 exPosition
          (.fin 100)) := by
  have h1 := exLedger1_position
  have h2 := exLedger1_last_datetime
  norm_num [sell, h1, h2, lastDatetime, mapFind, Dbl.isnan, Dbl.ne, Dbl.gt, MAX_DOUBLE, exStock,
    exPosition]

/-- C3 fails on the code.  On a ledger created at time 0, a buy at time 10 is accepted; a buy
and a sell at the earlier time 5 are then accepted too, where the claim has them rejected,
and a deposit at time 5 succeeds.  Likewise a deposit at time 5 succeeds after an accepted
deposit at time 10.  The guards compare with `m_last_datetime`, which no operation sets to
the time of an accepted call. -/
theorem monotonic_time_counterexample :
    (buy exLedger 10 exStock (.fin 10) (.fin 100) (.fin 9) (.fin 12) (.fin 10)
      0).record.business = .BUSINESS_BUY ∧
    exLedger1 = (buy exLedger 10 exStock (.fin 10) (.fin 100) (.fin 9) (.fin 12) (.fin 10) 0).tm ∧
    (5 : Datetime) < 10 ∧
    (buy exLedger1 5 exStock (.fin 10) (.fin 100) (.fin 9) (.fin 12) (.fin 10)
      0).record.business = .BUSINESS_BUY ∧
    (∃ o, sell exLedger1 5 exStock (.fin 11) (.fin 100) (.fin 9) (.fin 12) (.fin 11) 0 = some o ∧
      o.record.business = .BUSINESS_SELL) ∧
    (checkin exLedger1 5 (.fin 1)).1 = true ∧
    (checkin exLedger 10 (.fin 1)).1 = true ∧
    (checkin (checkin exLedger 10 (.fin 1)).2 5 (.fin 1)).1 = true := by
  refine ⟨by rw [exLedger_buy_eq, buyFill_record], rfl, by decide,
    by rw [exLedger1_buy_eq, buyFill_record], ⟨_, exLedger1_sell_early_eq, ?_⟩, ?_, ?_, ?_⟩
  · rw [sellFill_record]
  · simp [checkin, exLedger1_last_datetime]
  · simp [checkin, exLedger, OrderTradeManager.new]
  · simp [checkin, exLedger, OrderTradeManager.new]

/-- What the time guard does achieve.  In every state reached from a fresh ledger by a
sequence of calls the member `m_last_datetime` still holds the time given at construction,
and a buy, sell or checkin whose time is earlier than that time is rejected: buy, and sell
with a numeric number, return an INVALID record, sell with a NaN number raises its check
failure, and checkin returns false; the ledger (cash, positions and broker-forwarded marker
included) is unchanged and no sink is called. -/
theorem early_call_rejected (t0 : Datetime) (initcash : price_t) (costfunc : TradeCost)
    (name : String) (now : Datetime) (precision : Int) (brokers : List OrderBroker)
    (ops : List Op) (datetime : Datetime) (h : datetime < t0) :
    lastDatetime (run (OrderTradeManager.new t0 initcash costfunc name now precision brokers) ops)
      = t0 ∧
    (∀ stock realPrice number stoploss goalPrice planPrice fromPart,
      buy (run (OrderTradeManager.new t0 initcash costfunc name now precision brokers) ops)
          datetime stock realPrice number stoploss goalPrice planPrice fromPart
        = ⟨Null_TradeRecord,
            run (OrderTradeManager.new t0 initcash costfunc name now precision brokers) ops,
            []⟩) ∧
    (∀ stock realPrice number stoploss goalPrice planPrice fromPart,
      sell (run (OrderTradeManager.new t0 initcash costfunc name now precision brokers) ops)
          datetime stock realPrice number stoploss goalPrice planPrice fromPart
        = if number.isnan then none
          else some ⟨Null_TradeRecord,
            run (OrderTradeManager.new t0 initcash costfunc name now precision brokers) ops,
            []⟩) ∧
    (∀ cash,
      checkin (run (OrderTradeManager.new t0 initcash costfunc name now precision brokers) ops)
          datetime cash
        = (false,
            run (OrderTradeManager.new t0 initcash costfunc name now precision brokers) ops)) ∧
    Null_TradeRecord.business = .BUSINESS_INVALID := by
  have hl : (run (OrderTradeManager.new t0 initcash costfunc name now precision brokers)
      ops).m_last_datetime = t0 := by
    rw [run_last_datetime]; rfl
  refine ⟨hl, ?_, ?_, ?_, rfl⟩
  · intro stock realPrice number stoploss goalPrice planPrice fromPart
    unfold buy
    simp only [lastDatetime, hl, h]
    split_ifs <;> rfl
  · intro stock realPrice number stoploss goalPrice planPrice fromPart
    unfold sell
    simp only [lastDatetime, hl, h]
    split_ifs <;> rfl
  · intro cash
    simp [checkin, hl, h]

theorem early_call_rejected_witness :
    (5 : Datetime) < 10 ∧
    buy (run (OrderTradeManager.new 10 (.fin 100000) (fixedCost 5 (11 / 2)) "SYS" 0 2 [])
        [.checkin 20 (.fin 1), .buy 30 exStock (.fin 10) (.fin 100) (.fin 9) (.fin 12) (.fin 10) 0])
        5 exStock (.fin 10) (.fin 100) (.fin 9) (.fin 12) (.fin 10) 0
      = ⟨Null_TradeRecord,
          run (OrderTradeManager.new 10 (.fin 100000) (fixedCost 5 (11 / 2)) "SYS" 0 2 [])
            [.checkin 20 (.fin 1),
              .buy 30 exStock (.fin 10) (.fin 100) (.fin 9) (.fin 12) (.fin 10) 0],
          []⟩ :=
  ⟨by decide,
    (early_call_rejected 10 (.fin 100000) (fixedCost 5 (11 / 2)) "SYS" 0 2 []
      [.checkin 20 (.fin 1), .buy 30 exStock (.fin 10) (.fin 100) (.fin 9) (.fin 12) (.fin 10) 0]
      5 (by decide)).2.1 exStock (.fin 10) (.fin 100) (.fin 9) (.fin 12) (.fin 10) 0⟩

/-- C4. A buy or sell call that returns an INVALID-side record leaves the ledger as it was, its
cash, position map and broker-forwarded timestamp included, and calls no broker sink. -/
theorem rejected_call_changes_nothing (tm : OrderTradeManager) (datetime : Datetime)
    (stock : Stock) (realPrice : price_t) (number : Dbl) (stoploss goalPrice planPrice : price_t)
    (fromPart : SystemPart) :
    ((buy tm datetime stock realPrice number stoploss goalPrice planPrice
        fromPart).record.business = .BUSINESS_INVALID →
      (buy tm datetime stock realPrice number stoploss goalPrice planPrice fromPart).tm = tm ∧
      (buy tm datetime stock realPrice number stoploss goalPrice planPrice fromPart).tm.m_cash
        = tm.m_cash ∧
      (buy tm datetime stock realPrice number stoploss goalPrice planPrice
        fromPart).tm.m_position = tm.m_position ∧
      (buy tm datetime stock realPrice number stoploss goalPrice planPrice
        fromPart).tm.m_broker_last_datetime = tm.m_broker_last_datetime ∧
      (buy tm datetime stock realPrice number stoploss goalPrice planPrice fromPart).calls = []) ∧
    (∀ o, sell tm datetime stock realPrice number stoploss goalPrice planPrice fromPart = some o →
      o.record.business = .BUSINESS_INVALID →
      o.tm = tm ∧ o.tm.m_cash = tm.m_cash ∧ o.tm.m_position = tm.m_position ∧
      o.tm.m_broker_last_datetime = tm.m_broker_last_datetime ∧ o.calls = []) := by
  constructor
  · intro h
    rcases buy_cases tm datetime stock realPrice number stoploss goalPrice planPrice fromPart
      with ⟨hb, _⟩ | ⟨hb, _⟩
    · rw [hb]; exact ⟨rfl, rfl, rfl, rfl, rfl⟩
    · rw [hb, buyFill_record] at h; simp at h
  · intro o h hs
    have hn : number.isnan = false := by
      cases hnan : number.isnan
      · rfl
      · simp [sell, hnan] at h
    rcases sell_cases tm datetime stock realPrice number stoploss goalPrice planPrice fromPart hn
      with ⟨hb, _⟩ | ⟨position, _, hb, _⟩
    · rw [hb] at h
      simp only [Option.some.injEq] at h
      subst h
      exact ⟨rfl, rfl, rfl, rfl, rfl⟩
    · rw [hb] at h
      simp only [Option.some.injEq] at h
      subst h
      rw [sellFill_record] at hs
      simp at hs

theorem rejected_call_changes_nothing_witness :
    ((buy exLedger 10 exStock (.fin 10) (.fin 0) (.fin 9) (.fin 12) (.fin 10)
        0).record.business = .BUSINESS_INVALID ∧
      (buy exLedger 10 exStock (.fin 10) (.fin 0) (.fin 9) (.fin 12) (.fin 10) 0).tm
        = exLedger ∧
      (buy exLedger 10 exStock (.fin 10) (.fin 0) (.fin 9) (.fin 12) (.fin 10) 0).calls = []) ∧
    (sell exLedger 10 exStock (.fin 10) (.fin 100) (.fin 9) (.fin 12) (.fin 10) 0
        = some ⟨Null_TradeRecord, exLedger, []⟩ ∧
      (⟨Null_TradeRecord, exLedger, []⟩ : Outcome).record.business = .BUSINESS_INVALID ∧
      (⟨Null_TradeRecord, exLedger, []⟩ : Outcome).tm.m_cash = exLedger.m_cash ∧
      (⟨Null_TradeRecord, exLedger, []⟩ : Outcome).calls = []) := by
  have hb : (buy exLedger 10 exStock (.fin 10) (.fin 0) (.fin 9) (.fin 12) (.fin 10)
      0).record.business = .BUSINESS_INVALID := by
    norm_num [buy, exLedger, exStock, OrderTradeManager.new, lastDatetime, Null_TradeRecord]
  have hs : sell exLedger 10 exStock (.fin 10) (.fin 100) (.fin 9) (.fin 12) (.fin 10) 0
      = some ⟨Null_TradeRecord, exLedger, []⟩ := by
    norm_num [sell, exLedger, exStock, OrderTradeManager.new, lastDatetime, mapFind, Dbl.isnan,
      Dbl.ne, Dbl.gt, MAX_DOUBLE]
  have hb2 := (rejected_call_changes_nothing exLedger 10 exStock (.fin 10) (.fin 0) (.fin 9)
    (.fin 12) (.fin 10) 0).1 hb
  have hs2 := (rejected_call_changes_nothing exLedger 10 exStock (.fin 10) (.fin 100) (.fin 9)
    (.fin 12) (.fin 10) 0).2 _ hs rfl
  exact ⟨⟨hb, hb2.1, hb2.2.2.2.2⟩, hs, rfl, hs2.2.1, hs2.2.2.2.2⟩

theorem exLedger1_buy2_eq :
    buy exLedger1 11 exStock (.fin 10) (.fin 100) (.fin 9) (.fin 12) (.fin 10) 0
      = buyFill exLedger1 11 exStock (.fin 10) (.fin 100) (.fin 9) (.fin 12) (.fin 10) 0
          ⟨.fin 5, .fin 0, .fin 0, .fin 0, .fin 5⟩ 2 (.fin 1000) := by
  have h1 := exLedger1_cash
  have h2 := exLedger1_last_datetime
  have h3 := exLedger1_precision
  have h4 := exLedger1_costfunc
  norm_num [buy, h1, h2, h3, h4, exStock, fixedCost, lastDatetime, Dbl.gt, getBuyCost, roundQ]

theorem exLedger2_position : exLedger2.m_position = [(1, exPosition2)] := by
  rw [exLedger2, exLedger1_buy2_eq, buyFill_position, exLedger1_position]
  norm_num [exStock, roundQ, mapFind, mapAssign, exPosition2]

theorem exLedger2_last_datetime : exLedger2.m_last_datetime = 0 := by
  rw [exLedger2, buy_last_datetime, exLedger1_last_datetime]

theorem exLedger2_sell_all_eq :
    sell exLedger2 20 exStock (.fin 11) MAX_DOUBLE (.fin 9) (.fin 12) (.fin 11) 0
      = some (sellFill exLedger2 20 exStock (.fin 11) (.fin 9) (.fin 12) (.fin 11) 0 exPosition2
          (.fin 200)) := by
  have h1 := exLedger2_position
  have h2 := exLedger2_last_datetime
  norm_num [sell, h1, h2, lastDatetime, mapFind, Dbl.isnan, Dbl.ne, Dbl.gt, MAX_DOUBLE, exStock,
    exPosition2]

theorem exLedger2_sell_200_eq :
    sell exLedger2 20 exStock (.fin 11) (.fin 200) (.fin 9) (.fin 12) (.fin 11) 0
      = some ⟨Null_TradeRecord, exLedger2, []⟩ := by
  have h1 := exLedger2_position
  have h2 := exLedger2_last_datetime
  norm_num [sell, h1, h2, lastDatetime, mapFind, Dbl.isnan, Dbl.ne, Dbl.gt, MAX_DOUBLE, exStock,
    exPosition2]

/-- The sell-all sentinel is a positive finite number. -/
theorem MAX_DOUBLE_pos : ∃ M : ℚ, MAX_DOUBLE = .fin M ∧ 0 < M :=
  ⟨_, rfl, by norm_num⟩

/-- C6, as stated, fails.  After two accepted buys of 100 the ledger holds 200 of an instrument
whose maximum trade number is 150: the sell with the sell-all sentinel is accepted and sells
200, while the same call with number = 200 is rejected and changes nothing. -/
theorem sell_all_sentinel_counterexample :
    exLedger2 = run exLedger
      [.buy 10 exStock (.fin 10) (.fin 100) (.fin 9) (.fin 12) (.fin 10) 0,
        .buy 11 exStock (.fin 10) (.fin 100) (.fin 9) (.fin 12) (.fin 10) 0] ∧
    (mapFind exStock.id exLedger2.m_position).map (fun p => p.number) = some (.fin 200) ∧
    (sell exLedger2 20 exStock (.fin 11) MAX_DOUBLE (.fin 9) (.fin 12) (.fin 11) 0).map
      (fun o => (o.record.business, o.record.number)) = some (.BUSINESS_SELL, .fin 200) ∧
    (sell exLedger2 20 exStock (.fin 11) (.fin 200) (.fin 9) (.fin 12) (.fin 11) 0).map
      (fun o => o.record.business) = some .BUSINESS_INVALID ∧
    sell exLedger2 20 exStock (.fin 11) MAX_DOUBLE (.fin 9) (.fin 12) (.fin 11) 0
      ≠ sell exLedger2 20 exStock (.fin 11) (.fin 200) (.fin 9) (.fin 12) (.fin 11) 0 := by
  refine ⟨rfl, ?_, ?_, ?_, ?_⟩
  · rw [exLedger2_position]; simp [mapFind, exStock, exPosition2]
  · rw [exLedger2_sell_all_eq]; simp [sellFill_record]
  · rw [exLedger2_sell_200_eq]; rfl
  · rw [exLedger2_sell_all_eq, exLedger2_sell_200_eq]
    intro h
    have h2 := congrArg (fun x => x.map (fun o => o.record.business)) h
    simp [sellFill_record, Null_TradeRecord] at h2

/-- C6, amended.  When the ledger holds an open position of size N in an instrument and N is
itself an admissible order size (N is not zero and minTradeNumber ≤ N ≤ maxTradeNumber; N,
like every finite double, is at most MAX_DOUBLE), a sell with the sell-all sentinel produces
the same returned record, the same resulting ledger and the same sink calls as the same sell
call with number = N; when the call passes the instrument and time checks it is accepted,
sells N, and the position is removed. -/
theorem sell_all_sentinel (tm : OrderTradeManager) (datetime : Datetime) (stock : Stock)
    (realPrice : price_t) (stoploss goalPrice planPrice : price_t) (fromPart : SystemPart)
    (position : PositionRecord) (N : ℚ)
    (hp : mapFind stock.id tm.m_position = some position) (hN : position.number = .fin N)
    (h0 : N ≠ 0) (hmin : stock.minTradeNumber ≤ N) (hmax : N ≤ stock.maxTradeNumber)
    (hdbl : Dbl.le (.fin N) MAX_DOUBLE = true) :
    sell tm datetime stock realPrice MAX_DOUBLE stoploss goalPrice planPrice fromPart
      = sell tm datetime stock realPrice (.fin N) stoploss goalPrice planPrice fromPart ∧
    (stock.isNull = false → ¬ datetime < lastDatetime tm →
      ∃ o, sell tm datetime stock realPrice MAX_DOUBLE stoploss goalPrice planPrice fromPart
          = some o ∧
        o.record.business = .BUSINESS_SELL ∧ o.record.number = .fin N ∧
        mapFind stock.id o.tm.m_position = none) := by
  obtain ⟨M, hM, hMpos⟩ := MAX_DOUBLE_pos
  rw [hM] at hdbl ⊢
  simp only [Dbl.le_fin_fin, decide_eq_true_eq] at hdbl
  have e1 : sell tm datetime stock realPrice (.fin M) stoploss goalPrice planPrice fromPart
      = if stock.isNull then some ⟨Null_TradeRecord, tm, []⟩
        else if datetime < lastDatetime tm then some ⟨Null_TradeRecord, tm, []⟩
        else some (sellFill tm datetime stock realPrice stoploss goalPrice planPrice fromPart
          position (.fin N)) := by
    have hx1 : ¬ M = 0 := ne_of_gt hMpos
    have hx2 : ¬ M < stock.minTradeNumber := not_lt.mpr (le_trans hmin hdbl)
    simp [sell, hM, hp, hN, Dbl.isnan, Dbl.ne, Dbl.gt, hx1, hx2]
  have e2 : sell tm datetime stock realPrice (.fin N) stoploss goalPrice planPrice fromPart
      = if stock.isNull then some ⟨Null_TradeRecord, tm, []⟩
        else if datetime < lastDatetime tm then some ⟨Null_TradeRecord, tm, []⟩
        else some (sellFill tm datetime stock realPrice stoploss goalPrice planPrice fromPart
          position (.fin N)) := by
    have hx2 : ¬ N < stock.minTradeNumber := not_lt.mpr hmin
    have hx3 : ¬ stock.maxTradeNumber < N := not_lt.mpr hmax
    simp [sell, hM, hp, hN, Dbl.isnan, Dbl.ne, Dbl.gt, h0, hx2, hx3]
  refine ⟨by rw [e1, e2], ?_⟩
  intro hnull htime
  refine ⟨_, by rw [e1, if_neg (by simp [hnull]), if_neg htime], ?_, ?_, ?_⟩
  · rw [sellFill_record]
  · rw [sellFill_record]
  · rw [sellFill_position, hN]
    simp
theorem sell_all_sentinel_witness :
    mapFind exStock.id exLedger1.m_position = some exPosition ∧
    exPosition.number = .fin 100 ∧
    exStock.minTradeNumber ≤ 100 ∧ (100 : ℚ) ≤ exStock.maxTradeNumber ∧
    sell exLedger1 20 exStock (.fin 11) MAX_DOUBLE (.fin 9) (.fin 12) (.fin 11) 0
      = sell exLedger1 20 exStock (.fin 11) (.fin 100) (.fin 9) (.fin 12) (.fin 11) 0 := by
  have hp : mapFind exStock.id exLedger1.m_position = some exPosition := by
    rw [exLedger1_position]; simp [mapFind, exStock, exPosition]
  have hmin : exStock.minTradeNumber ≤ 100 := by norm_num [exStock]
  have hmax : (100 : ℚ) ≤ exStock.maxTradeNumber := by norm_num [exStock]
  exact ⟨hp, rfl, hmin, hmax,
    (sell_all_sentinel exLedger1 20 exStock (.fin 11) (.fin 9) (.fin 12) (.fin 11) 0 exPosition
      100 hp rfl (by norm_num) hmin hmax (by norm_num [MAX_DOUBLE])).1⟩

/-- C7 fails on the code.  A buy whose number is NaN passes every check of `buy`, none of which
is true of NaN, and is accepted: it returns a BUY record, although `minTradeNumber <= number`
does not hold, and it leaves the cash balance NaN.  (`sell` guards its number with an
`isnan` check; `buy` has none.) -/
theorem buy_accepts_nan_number :
    exStock.isNull = false ∧
    Dbl.le (.fin exStock.minTradeNumber) .nan = false ∧
    Dbl.le .nan (.fin exStock.maxTradeNumber) = false ∧
    (buy exLedger 10 exStock (.fin 10) .nan (.fin 9) (.fin 12) (.fin 10) 0).record.business
      = .BUSINESS_BUY ∧
    (buy exLedger 10 exStock (.fin 10) .nan (.fin 9) (.fin 12) (.fin 10) 0).tm.m_cash = .nan := by
  have e : buy exLedger 10 exStock (.fin 10) .nan (.fin 9) (.fin 12) (.fin 10) 0
      = buyFill exLedger 10 exStock (.fin 10) .nan (.fin 9) (.fin 12) (.fin 10) 0
          ⟨.fin 5, .fin 0, .fin 0, .fin 0, .fin 5⟩ 2 .nan := by
    norm_num [buy, exLedger, exStock, fixedCost, OrderTradeManager.new, lastDatetime, Dbl.gt,
      getBuyCost]
  refine ⟨rfl, rfl, rfl, ?_, ?_⟩
  · rw [e, buyFill_record]
  · rw [e, buyFill_cash]; simp

/-- Buy acceptance on numeric inputs.  When the number, the price, the cash balance and the
cost total are all numbers, `buy` returns a BUY record exactly when the instrument is valid, the
time is not before the last-operation time, the number is not zero and lies between the
minimum and maximum trade number, and the cash covers `round(notional + cost.total)`; in every
other case the record is INVALID. -/
theorem buy_acceptance_numeric (tm : OrderTradeManager) (datetime : Datetime) (stock : Stock)
    (realPrice : price_t) (stoploss goalPrice planPrice : price_t) (fromPart : SystemPart)
    (n p c t : ℚ) (hp : realPrice = .fin p) (hc : tm.m_cash = .fin c)
    (ht : (getBuyCost tm datetime stock realPrice (.fin n)).total = .fin t) :
    ((buy tm datetime stock realPrice (.fin n) stoploss goalPrice planPrice
        fromPart).record.business = .BUSINESS_BUY ↔
      stock.isNull = false ∧ lastDatetime tm ≤ datetime ∧ n ≠ 0 ∧
        stock.minTradeNumber ≤ n ∧ n ≤ stock.maxTradeNumber ∧
        roundQ (roundQ (p * n * stock.unit) tm.precision + t) tm.precision ≤ c) ∧
    ((buy tm datetime stock realPrice (.fin n) stoploss goalPrice planPrice
        fromPart).record.business ≠ .BUSINESS_BUY →
      (buy tm datetime stock realPrice (.fin n) stoploss goalPrice planPrice
        fromPart).record.business = .BUSINESS_INVALID) := by
  subst hp
  rcases buy_cases tm datetime stock (.fin p) (.fin n) stoploss goalPrice planPrice fromPart
    with ⟨hb, hr⟩ | ⟨hb, h1, h2, h3, h4, h5, h6⟩
  · rw [hb]
    refine ⟨⟨fun h => by simp [Null_TradeRecord] at h, ?_⟩, fun _ => rfl⟩
    rintro ⟨g1, g2, g3, g4, g5, g6⟩
    rw [hc, ht] at hr
    simp [Dbl.gt, g1, not_lt.mpr g2, g3, not_lt.mpr g4, not_lt.mpr g5, not_lt.mpr g6] at hr
  · rw [hb, buyFill_record]
    rw [hc, ht] at h6
    simp [Dbl.gt] at h3 h4 h5 h6
    simp only [ne_eq, not_true_eq_false, false_implies, and_true, true_iff]
    exact ⟨h1, not_lt.mp h2, h3, h4, h5, h6⟩

/-- C8. For a numeric `number`, `sell` returns a record, and it is a SELL record exactly when
the instrument is valid, the time is not before the last-operation time, `number != 0`,
`number >= minTradeNumber`, `number` is the sell-all sentinel or `number <= maxTradeNumber`,
an open position of the instrument exists, and the quantity to sell (the holding for the
sentinel, else `number`) is not greater than the holding.  Otherwise the record is INVALID; in
particular with no open position, or with more to sell than is held. -/
theorem sell_acceptance (tm : OrderTradeManager) (datetime : Datetime) (stock : Stock)
    (realPrice : price_t) (number : Dbl) (stoploss goalPrice planPrice : price_t)
    (fromPart : SystemPart) (hn : number.isnan = false) :
    ∃ o, sell tm datetime stock realPrice number stoploss goalPrice planPrice fromPart = some o ∧
      (o.record.business = .BUSINESS_SELL ↔
        stock.isNull = false ∧ lastDatetime tm ≤ datetime ∧ Dbl.ne number (.fin 0) = true ∧
          Dbl.ge number (.fin stock.minTradeNumber) = true ∧
          (Dbl.eq number MAX_DOUBLE = true ∨ Dbl.le number (.fin stock.maxTradeNumber) = true) ∧
          ∃ position, mapFind stock.id tm.m_position = some position ∧
            Dbl.gt (if Dbl.eq number MAX_DOUBLE then position.number else number)
              position.number = false) ∧
      (o.record.business ≠ .BUSINESS_SELL → o.record.business = .BUSINESS_INVALID) ∧
      (mapFind stock.id tm.m_position = none → o.record.business = .BUSINESS_INVALID) ∧
      (∀ position, mapFind stock.id tm.m_position = some position →
        Dbl.gt (if Dbl.eq number MAX_DOUBLE then position.number else number)
          position.number = true → o.record.business = .BUSINESS_INVALID) := by
  obtain ⟨M, hM, _⟩ := MAX_DOUBLE_pos
  cases number with
  | nan => simp [Dbl.isnan] at hn
  | fin q =>
    rcases sell_cases tm datetime stock realPrice (.fin q) stoploss goalPrice planPrice fromPart
      hn with ⟨hb, hr⟩ | ⟨position, hp, hb, h1, h2, h3, h4, h5, h6⟩
    · refine ⟨_, hb, ⟨fun h => by simp [Null_TradeRecord] at h, ?_⟩, fun _ => rfl, fun _ => rfl,
        fun _ _ _ => rfl⟩
      rintro ⟨g1, g2, g3, g4, g5, position, g6, g7⟩
      rw [hM] at hr g5 g7
      simp only [Dbl.ne_eq_true_iff, Dbl.ge, Dbl.gt, Dbl.eq_fin_fin, Dbl.le_fin_fin,
        Dbl.lt_fin_fin, decide_eq_false_iff_not, decide_eq_true_eq] at hr g3 g4 g5 g7
      rcases hr with hr | hr | hr | hr | hr | hr | ⟨p2, hr, hr2⟩
      · rw [g1] at hr; simp at hr
      · exact absurd hr (not_lt.mpr g2)
      · exact (g3 hr).elim
      · exact absurd hr (not_lt.mpr g4)
      · rcases g5 with g5 | g5
        · exact (hr.1 g5).elim
        · exact absurd hr.2 (not_lt.mpr g5)
      · rw [hr] at g6; simp at g6
      · rw [hr] at g6
        simp only [Option.some.injEq] at g6
        subst g6
        rw [hr2] at g7
        simp at g7
    · refine ⟨_, hb, ?_, ?_, ?_, ?_⟩
      · rw [sellFill_record]
        simp only [true_iff]
        rw [hM] at h5 h6 ⊢
        simp only [Dbl.ne_eq_true_iff, Dbl.ge, Dbl.gt, Dbl.eq_fin_fin, Dbl.le_fin_fin,
          Dbl.lt_fin_fin, decide_eq_false_iff_not, decide_eq_true_eq, not_and, not_lt]
          at h3 h4 h5 h6 ⊢
        refine ⟨h1, not_lt.mp h2, h3, h4, ?_, position, hp, h6⟩
        by_cases hq : q = M
        · exact Or.inl hq
        · exact Or.inr (h5 hq)
      · intro h
        rw [sellFill_record] at h
        simp at h
      · intro h
        rw [h] at hp
        simp at hp
      · intro p2 hp2 hgt
        rw [hp] at hp2
        simp only [Option.some.injEq] at hp2
        subst hp2
        rw [Dbl.gt, h6] at hgt
        simp at hgt

theorem sell_acceptance_witness :
    Dbl.isnan MAX_DOUBLE = false ∧
    ∃ o, sell exLedger1 20 exStock (.fin 11) MAX_DOUBLE (.fin 9) (.fin 12) (.fin 11) 0 = some o ∧
      (o.record.business ≠ .BUSINESS_SELL → o.record.business = .BUSINESS_INVALID) :=
  ⟨rfl,
    (sell_acceptance exLedger1 20 exStock (.fin 11) MAX_DOUBLE (.fin 9) (.fin 12) (.fin 11) 0
      rfl).imp fun _ h => ⟨h.1, h.2.2.1⟩⟩

/-- C9. After an accepted buy: if the instrument had no position, the map holds a new record
with firstBuyTime = time, no close time, totalNumber = currentNumberHeld = number,
buyMoney = notional, totalCost = cost.total, sellMoney = 0,
totalRisk = round((realPrice - stopLoss) * number * unit) and the order's stopLoss and
goalPrice; if it had one, the record's number and totalNumber each grow by number,
buyMoney = round(notional + oldBuyMoney), totalCost = round(cost.total + oldTotalCost),
totalRisk = round(oldTotalRisk + (realPrice - stopLoss) * number * unit), stopLoss and goalPrice
are those of the new order, and the other fields are unchanged. -/
theorem buy_position_update (tm : OrderTradeManager) (datetime : Datetime) (stock : Stock)
    (realPrice : price_t) (number : Dbl) (stoploss goalPrice planPrice : price_t)
    (fromPart : SystemPart)
    (h : (buy tm datetime stock realPrice number stoploss goalPrice planPrice
      fromPart).record.business = .BUSINESS_BUY) :
    (mapFind stock.id tm.m_position = none →
      mapFind stock.id
          (buy tm datetime stock realPrice number stoploss goalPrice planPrice
            fromPart).tm.m_position
        = some
          { stock := stock
            takeDatetime := datetime
            cleanDatetime := none
            number := number
            stoploss := stoploss
            goalPrice := goalPrice
            totalNumber := number
            buyMoney := roundEx (realPrice * number * .fin stock.unit) tm.precision
            totalCost := (getBuyCost tm datetime stock realPrice number).total
            totalRisk :=
              roundEx ((realPrice - stoploss) * number * .fin stock.unit) tm.precision
            sellMoney := .fin 0 }) ∧
    (∀ old, mapFind stock.id tm.m_position = some old →
      mapFind stock.id
          (buy tm datetime stock realPrice number stoploss goalPrice planPrice
            fromPart).tm.m_position
        = some
          { stock := old.stock
            takeDatetime := old.takeDatetime
            cleanDatetime := old.cleanDatetime
            number := old.number + number
            stoploss := stoploss
            goalPrice := goalPrice
            totalNumber := old.totalNumber + number
            buyMoney :=
              roundEx (roundEx (realPrice * number * .fin stock.unit) tm.precision + old.buyMoney)
                tm.precision
            totalCost :=
              roundEx ((getBuyCost tm datetime stock realPrice number).total + old.totalCost)
                tm.precision
            totalRisk :=
              roundEx (old.totalRisk + (realPrice - stoploss) * number * .fin stock.unit)
                tm.precision
            sellMoney := old.sellMoney }) := by
  rcases buy_cases tm datetime stock realPrice number stoploss goalPrice planPrice fromPart with
    ⟨hb, _⟩ | ⟨hb, _⟩
  · rw [hb] at h; simp [Null_TradeRecord] at h
  · rw [hb, buyFill_position]
    constructor
    · intro hnone
      rw [hnone]
      simp
    · intro old hold
      rw [hold]
      simp

theorem buy_position_update_witness :
    (buy exLedger 10 exStock (.fin 10) (.fin 100) (.fin 9) (.fin 12) (.fin 10)
      0).record.business = .BUSINESS_BUY ∧
    mapFind exStock.id exLedger.m_position = none ∧
    mapFind exStock.id
        (buy exLedger 10 exStock (.fin 10) (.fin 100) (.fin 9) (.fin 12) (.fin 10)
          0).tm.m_position
      = some
        { stock := exStock
          takeDatetime := 10
          cleanDatetime := none
          number := .fin 100
          stoploss := .fin 9
          goalPrice := .fin 12
          totalNumber := .fin 100
          buyMoney := roundEx (Dbl.fin 10 * Dbl.fin 100 * .fin exStock.unit) exLedger.precision
          totalCost := (getBuyCost exLedger 10 exStock (.fin 10) (.fin 100)).total
          totalRisk :=
            roundEx ((Dbl.fin 10 - Dbl.fin 9) * Dbl.fin 100 * .fin exStock.unit)
              exLedger.precision
          sellMoney := .fin 0 } :=
  ⟨by rw [exLedger_buy_eq, buyFill_record], rfl,
    (buy_position_update exLedger 10 exStock (.fin 10) (.fin 100) (.fin 9) (.fin 12) (.fin 10) 0
      (by rw [exLedger_buy_eq, buyFill_record])).1 rfl⟩

/-- C10. After an accepted sell of soldNumber from a holding of H, the instrument's position is
absent from the map exactly when `soldNumber == H`; otherwise the record remains with
number = H - soldNumber, totalCost = round(oldTotalCost + cost.total),
sellMoney = round(oldSellMoney + proceeds), stopLoss and goalPrice those of the order, and
buyMoney, totalNumber and the other fields unchanged. -/
theorem sell_position_update (tm : OrderTradeManager) (datetime : Datetime) (stock : Stock)
    (realPrice : price_t) (number : Dbl) (stoploss goalPrice planPrice : price_t)
    (fromPart : SystemPart) (o : Outcome)
    (h : sell tm datetime stock realPrice number stoploss goalPrice planPrice fromPart = some o)
    (hs : o.record.business = .BUSINESS_SELL) :
    ∃ old, mapFind stock.id tm.m_position = some old ∧
      o.record.number = (if Dbl.eq number MAX_DOUBLE then old.number else number) ∧
      (mapFind stock.id o.tm.m_position = none ↔ Dbl.eq o.record.number old.number = true) ∧
      (Dbl.eq o.record.number old.number = false →
        mapFind stock.id o.tm.m_position
          = some
            { stock := old.stock
              takeDatetime := old.takeDatetime
              cleanDatetime := old.cleanDatetime
              number := old.number - o.record.number
              stoploss := stoploss
              goalPrice := goalPrice
              totalNumber := old.totalNumber
              buyMoney := old.buyMoney
              totalCost :=
                roundEx (old.totalCost
                  + (getSellCost tm datetime stock realPrice o.record.number).total) tm.precision
              totalRisk := old.totalRisk
              sellMoney :=
                roundEx (old.sellMoney
                  + roundEx (realPrice * o.record.number * .fin stock.unit) tm.precision)
                  tm.precision }) := by
  have hn : number.isnan = false := by
    cases hnan : number.isnan
    · rfl
    · simp [sell, hnan] at h
  rcases sell_cases tm datetime stock realPrice number stoploss goalPrice planPrice fromPart hn
    with ⟨hb, _⟩ | ⟨old, hp, hb, _⟩
  · rw [hb] at h
    simp only [Option.some.injEq] at h
    subst h
    simp [Null_TradeRecord] at hs
  · rw [hb] at h
    simp only [Option.some.injEq] at h
    subst h
    refine ⟨old, hp, by rw [sellFill_record], ?_, ?_⟩
    · rw [sellFill_position, sellFill_record, Dbl.eq_sub_zero]
      simp only []
      generalize (if Dbl.eq number MAX_DOUBLE = true then old.number else number) = r
      cases hz : Dbl.eq r old.number <;> simp
    · rw [sellFill_position, sellFill_record, Dbl.eq_sub_zero]
      simp only []
      generalize (if Dbl.eq number MAX_DOUBLE = true then old.number else number) = r
      intro hne
      simp [hne]

theorem sell_position_update_witness :
    sell exLedger1 20 exStock (.fin 11) MAX_DOUBLE (.fin 9) (.fin 12) (.fin 11) 0
      = some exSellAll ∧
    exSellAll.record.business = .BUSINESS_SELL ∧
    ∃ old, mapFind exStock.id exLedger1.m_position = some old ∧
      exSellAll.record.number = (if Dbl.eq MAX_DOUBLE MAX_DOUBLE then old.number else MAX_DOUBLE) ∧
      (mapFind exStock.id exSellAll.tm.m_position = none ↔
        Dbl.eq exSellAll.record.number old.number = true) :=
  ⟨exLedger1_sell_all_eq, by rw [exSellAll, sellFill_record],
    (sell_position_update exLedger1 20 exStock (.fin 11) MAX_DOUBLE (.fin 9) (.fin 12) (.fin 11)
      0 exSellAll exLedger1_sell_all_eq (by rw [exSellAll, sellFill_record])).imp
      fun _ h => ⟨h.1, h.2.1, h.2.2.1⟩⟩

/-! ## The position invariant -/

theorem mapFind_mem (k : Nat) (v : PositionRecord) (m : position_map_type)
    (h : mapFind k m = some v) : (k, v) ∈ m := by
  induction m with
  | nil => simp [mapFind] at h
  | cons kv rest ih =>
    obtain ⟨k1, v1⟩ := kv
    by_cases hk : k1 = k
    · simp [mapFind, hk] at h
      simp [hk, h]
    · simp [mapFind, hk] at h
      exact List.mem_cons_of_mem _ (ih h)

theorem mem_mapAssign (k : Nat) (v : PositionRecord) (m : position_map_type)
    (kv : Nat × PositionRecord) (h : kv ∈ mapAssign k v m) : kv = (k, v) ∨ kv ∈ m := by
  induction m with
  | nil => simpa [mapAssign] using h
  | cons kv1 rest ih =>
    obtain ⟨k1, v1⟩ := kv1
    by_cases hk : k1 = k
    · simp only [mapAssign, hk, if_true, List.mem_cons] at h
      rcases h with h | h
      · exact Or.inl h
      · exact Or.inr (List.mem_cons_of_mem _ h)
    · simp only [mapAssign, hk, if_false, List.mem_cons] at h
      rcases h with h | h
      · exact Or.inr (by simp [h])
      · rcases ih h with h2 | h2
        · exact Or.inl h2
        · exact Or.inr (List.mem_cons_of_mem _ h2)

theorem keys_mapAssign (k : Nat) (v : PositionRecord) (m : position_map_type) :
    (mapAssign k v m).map Prod.fst
      = if k ∈ m.map Prod.fst then m.map Prod.fst else m.map Prod.fst ++ [k] := by
  induction m with
  | nil => simp [mapAssign]
  | cons kv1 rest ih =>
    obtain ⟨k1, v1⟩ := kv1
    by_cases hk : k1 = k
    · simp [mapAssign, hk]
    · have hk2 : ¬ k = k1 := fun h => hk h.symm
      simp only [mapAssign, hk, if_false, List.map_cons, ih, List.mem_cons, hk2, false_or]
      split_ifs <;> simp

theorem mapErase_eq_filter (k : Nat) (m : position_map_type) :
    mapErase k m = m.filter (fun kv => decide (kv.1 ≠ k)) := by
  induction m with
  | nil => rfl
  | cons kv1 rest ih =>
    obtain ⟨k1, v1⟩ := kv1
    by_cases hk : k1 = k <;> simp [mapErase, hk, ih]

theorem positionsOk_mapAssign (k : Nat) (v : PositionRecord) (m : position_map_type)
    (hm : positionsOk m) (hv : Dbl.gt v.number (.fin 0) = true) :
    positionsOk (mapAssign k v m) := by
  constructor
  · intro kv hkv
    rcases mem_mapAssign k v m kv hkv with h | h
    · rw [h]; exact hv
    · exact hm.1 kv h
  · rw [keys_mapAssign]
    split_ifs with hk
    · exact hm.2
    · exact List.Nodup.append hm.2 (List.nodup_singleton k) (by simpa using hk)

theorem positionsOk_mapErase (k : Nat) (m : position_map_type) (hm : positionsOk m) :
    positionsOk (mapErase k m) := by
  rw [mapErase_eq_filter]
  constructor
  · intro kv hkv
    exact hm.1 kv (List.mem_of_mem_filter hkv)
  · exact (hm.2.sublist ((List.filter_sublist _).map Prod.fst))

theorem buy_positionsOk (tm : OrderTradeManager) (datetime : Datetime) (stock : Stock)
    (realPrice : price_t) (number : Dbl) (stoploss goalPrice planPrice : price_t)
    (fromPart : SystemPart) (hm : positionsOk tm.m_position)
    (hmin : 0 ≤ stock.minTradeNumber) (hn : number.isnan = false) :
    positionsOk
      (buy tm datetime stock realPrice number stoploss goalPrice planPrice
        fromPart).tm.m_position := by
  rcases buy_cases tm datetime stock realPrice number stoploss goalPrice planPrice fromPart with
    ⟨hb, _⟩ | ⟨hb, _, _, h3, h4, _, _⟩
  · rw [hb]; exact hm
  · rw [hb, buyFill_position]
    cases number with
    | nan => simp [Dbl.isnan] at hn
    | fin n =>
      simp only [Dbl.eq_fin_fin, Dbl.lt_fin_fin, decide_eq_false_iff_not, not_lt] at h3 h4
      have hpos : 0 < n := lt_of_le_of_ne (le_trans hmin h4) (Ne.symm h3)
      cases hf : mapFind stock.id tm.m_position with
      | none =>
        exact positionsOk_mapAssign _ _ _ hm (by simp [Dbl.gt, hpos])
      | some position =>
        refine positionsOk_mapAssign _ _ _ hm ?_
        have hp := hm.1 _ (mapFind_mem _ _ _ hf)
        cases hnum : position.number with
        | nan => simp [hnum, Dbl.gt] at hp
        | fin a =>
          simp only [hnum, Dbl.gt, Dbl.lt_fin_fin, decide_eq_true_eq] at hp
          simp [Dbl.gt, add_pos hp hpos]

theorem sell_positionsOk (tm : OrderTradeManager) (datetime : Datetime) (stock : Stock)
    (realPrice : price_t) (number : Dbl) (stoploss goalPrice planPrice : price_t)
    (fromPart : SystemPart) (o : Outcome) (hm : positionsOk tm.m_position)
    (h : sell tm datetime stock realPrice number stoploss goalPrice planPrice fromPart = some o) :
    positionsOk o.tm.m_position := by
  have hn : number.isnan = false := by
    cases hnan : number.isnan
    · rfl
    · simp [sell, hnan] at h
  rcases sell_cases tm datetime stock realPrice number stoploss goalPrice planPrice fromPart hn
    with ⟨hb, _⟩ | ⟨position, hf, hb, _, _, _, _, _, h6⟩
  · rw [hb] at h
    simp only [Option.some.injEq] at h
    subst h
    exact hm
  · rw [hb] at h
    simp only [Option.some.injEq] at h
    subst h
    rw [sellFill_position]
    have hp := hm.1 _ (mapFind_mem _ _ _ hf)
    cases hnum : position.number with
    | nan => simp [hnum, Dbl.gt] at hp
    | fin a =>
      have hr : ∃ b, (if Dbl.eq number MAX_DOUBLE = true then position.number else number)
          = .fin b := by
        split_ifs
        · exact ⟨a, hnum⟩
        · cases number with
          | nan => simp [Dbl.isnan] at hn
          | fin q => exact ⟨q, rfl⟩
      obtain ⟨b, hr⟩ := hr
      rw [hr, hnum] at h6
      rw [hnum] at hr
      rw [hr]
      simp only [Dbl.fin_sub_fin, Dbl.eq_fin_fin, Dbl.lt_fin_fin, decide_eq_true_eq,
        decide_eq_false_iff_not, not_lt] at h6 ⊢
      split_ifs with hz
      · exact positionsOk_mapErase _ _ hm
      · refine positionsOk_mapAssign _ _ _ hm ?_
        have : 0 < a - b := lt_of_le_of_ne (sub_nonneg.mpr h6) (Ne.symm hz)
        simp [Dbl.gt, this]

theorem step_positionsOk (tm : OrderTradeManager) (op : Op) (hm : positionsOk tm.m_position)
    (hop : op.numeric) : positionsOk (step tm op).m_position := by
  cases op with
  | checkin datetime cash =>
    simp only [step, checkin]
    split_ifs <;> exact hm
  | buy datetime stock realPrice number stoploss goalPrice planPrice fromPart =>
    exact buy_positionsOk tm datetime stock realPrice number stoploss goalPrice planPrice
      fromPart hm hop.1 hop.2
  | sell datetime stock realPrice number stoploss goalPrice planPrice fromPart =>
    simp only [step]
    cases hs : sell tm datetime stock realPrice number stoploss goalPrice planPrice fromPart with
    | none => exact hm
    | some o =>
      exact sell_positionsOk tm datetime stock realPrice number stoploss goalPrice planPrice
        fromPart o hm hs

/-- The position invariant holds for numeric calls.  In every state reached from a freshly
constructed ledger by checkin, buy and sell calls on instruments whose minimum trade number is
non-negative, the buys having a numeric number, every position record has a holding greater
than zero and no instrument has two records. -/
theorem position_invariant_numeric (datetime : Datetime) (initcash : price_t)
    (costfunc : TradeCost) (name : String) (now : Datetime) (precision : Int)
    (brokers : List OrderBroker) (ops : List Op) (hops : ∀ op ∈ ops, op.numeric) :
    positionsOk
      (run (OrderTradeManager.new datetime initcash costfunc name now precision brokers)
        ops).m_position := by
  have key : ∀ (ops : List Op) (tm : OrderTradeManager), positionsOk tm.m_position →
      (∀ op ∈ ops, op.numeric) → positionsOk (run tm ops).m_position := by
    intro ops
    induction ops with
    | nil => intro tm hm _; exact hm
    | cons op rest ih =>
      intro tm hm hall
      simp only [run, List.foldl_cons]
      exact ih (step tm op) (step_positionsOk tm op hm (hall op (List.mem_cons_self _ _)))
        (fun op2 h2 => hall op2 (List.mem_cons_of_mem _ h2))
  exact key ops _ ⟨by simp [OrderTradeManager.new], by simp [OrderTradeManager.new]⟩ hops

/-- C5 fails on the code.  A buy whose number is NaN is accepted (`buy` has no `isnan` check,
unlike `sell`), and the record it stores has the holding NaN, which is not greater than zero:
the ledger reached from a fresh ledger by that one call, on an instrument whose minimum trade
number is 100, breaks the position invariant. -/
theorem position_invariant_fails_on_nan_buy :
    0 ≤ exStock.minTradeNumber ∧
    (∃ p, mapFind exStock.id
        (run exLedger
          [.buy 10 exStock (.fin 10) .nan (.fin 9) (.fin 12) (.fin 10) 0]).m_position = some p ∧
      p.number = .nan ∧ Dbl.gt p.number (.fin 0) = false) ∧
    ¬ positionsOk
      (run exLedger [.buy 10 exStock (.fin 10) .nan (.fin 9) (.fin 12) (.fin 10) 0]).m_position := by
  have e : buy exLedger 10 exStock (.fin 10) .nan (.fin 9) (.fin 12) (.fin 10) 0
      = buyFill exLedger 10 exStock (.fin 10) .nan (.fin 9) (.fin 12) (.fin 10) 0
          ⟨.fin 5, .fin 0, .fin 0, .fin 0, .fin 5⟩ 2 .nan := by
    norm_num [buy, exLedger, exStock, fixedCost, OrderTradeManager.new, lastDatetime, Dbl.gt,
      getBuyCost]
  have hpos : (run exLedger
      [.buy 10 exStock (.fin 10) .nan (.fin 9) (.fin 12) (.fin 10) 0]).m_position
      = [(1, ⟨exStock, 10, none, .nan, .fin 9, .fin 12, .nan, .nan, .fin 5, .nan, .fin 0⟩)] := by
    simp only [run, List.foldl_cons, List.foldl_nil, step]
    rw [e, buyFill_position]
    simp [exLedger, OrderTradeManager.new, mapFind, mapAssign, exStock]
  refine ⟨by norm_num [exStock],
    ⟨⟨exStock, 10, none, .nan, .fin 9, .fin 12, .nan, .nan, .fin 5, .nan, .fin 0⟩,
      by rw [hpos]; simp [mapFind, exStock], rfl, rfl⟩, ?_⟩
  rw [hpos]
  intro h
  have := h.1 _ (List.mem_singleton_self _)
  simp [Dbl.gt] at this

/-! ## The end-to-end scenario -/

theorem buyFill_static (tm : OrderTradeManager) (datetime : Datetime) (stock : Stock)
    (realPrice : price_t) (number : Dbl) (stoploss goalPrice planPrice : price_t)
    (fromPart : SystemPart) (cost : CostRecord) (precision : Int) (money : price_t) :
    (buyFill tm datetime stock realPrice number stoploss goalPrice planPrice fromPart cost
        precision money).tm.precision = tm.precision ∧
    (buyFill tm datetime stock realPrice number stoploss goalPrice planPrice fromPart cost
        precision money).tm.m_costfunc = tm.m_costfunc ∧
    (buyFill tm datetime stock realPrice number stoploss goalPrice planPrice fromPart cost
        precision money).tm.m_broker_list = tm.m_broker_list := by
  unfold buyFill
  simp only []
  split_ifs <;> exact ⟨rfl, rfl, rfl⟩

theorem roundQ_1000 : roundQ 1000 2 = 1000 := by norm_num [roundQ]

/-- C11. From a fresh ledger with cash 100000.00 and precision 2, a buy of 100 units at 10.00
(unit 1) with buy cost 5.00 is accepted, leaves cash 98995.00 and exactly one position, holding
100; a following sell of all 100 at 11.00 (given as the number 100 or as the sell-all sentinel)
with sell cost 5.50 is accepted, has proceeds 1100.00, leaves cash 100089.50 and an empty
position map. -/
theorem end_to_end (t0 now t1 t2 : Datetime) (costfunc : TradeCost) (name : String)
    (brokers : List OrderBroker) (stock : Stock)
    (stoploss goalPrice planPrice stoploss2 goalPrice2 planPrice2 : price_t)
    (fromPart fromPart2 : SystemPart) (number2 : Dbl)
    (hvalid : stock.isNull = false) (hunit : stock.unit = 1)
    (hmin : stock.minTradeNumber ≤ 100) (hmax : 100 ≤ stock.maxTradeNumber)
    (ht1 : t0 ≤ t1) (ht2 : t0 ≤ t2)
    (hbuy : (costfunc.getBuyCost t1 stock (.fin 10) (.fin 100)).total = .fin 5)
    (hsell : (costfunc.getSellCost t2 stock (.fin 11) (.fin 100)).total = .fin (11 / 2))
    (hall : number2 = .fin 100 ∨ number2 = MAX_DOUBLE) :
    ∃ o1 position o2,
      buy (OrderTradeManager.new t0 (.fin 100000) costfunc name now 2 brokers) t1 stock (.fin 10)
        (.fin 100) stoploss goalPrice planPrice fromPart = o1 ∧
      o1.record.business = .BUSINESS_BUY ∧
      o1.tm.m_cash = .fin 98995 ∧
      o1.tm.m_position = [(stock.id, position)] ∧
      position.number = .fin 100 ∧
      sell o1.tm t2 stock (.fin 11) number2 stoploss2 goalPrice2 planPrice2 fromPart2
        = some o2 ∧
      o2.record.business = .BUSINESS_SELL ∧
      o2.record.number = .fin 100 ∧
      roundEx (Dbl.fin 11 * o2.record.number * .fin stock.unit) 2 = .fin 1100 ∧
      o2.tm.m_cash = .fin (10008950 / 100) ∧
      o2.tm.m_position = [] := by
  have e1 : buy (OrderTradeManager.new t0 (.fin 100000) costfunc name now 2 brokers) t1 stock
      (.fin 10) (.fin 100) stoploss goalPrice planPrice fromPart
      = buyFill (OrderTradeManager.new t0 (.fin 100000) costfunc name now 2 brokers) t1 stock
          (.fin 10) (.fin 100) stoploss goalPrice planPrice fromPart
          (costfunc.getBuyCost t1 stock (.fin 10) (.fin 100)) 2 (.fin 1000) := by
    have hx1 : ¬ t1 < t0 := not_lt.mpr ht1
    have hx2 : ¬ (100 : ℚ) < stock.minTradeNumber := not_lt.mpr hmin
    have hx3 : ¬ stock.maxTradeNumber < (100 : ℚ) := not_lt.mpr hmax
    simp only [buy, OrderTradeManager.new, lastDatetime, getBuyCost, Dbl.gt, hvalid, hunit, hbuy,
      hx1, hx2, hx3, Dbl.eq_fin_fin, Dbl.lt_fin_fin, Dbl.fin_mul_fin, Dbl.fin_add_fin,
      roundEx_fin]
    norm_num [roundQ]
  obtain ⟨hprec, hcost, _⟩ := buyFill_static
    (OrderTradeManager.new t0 (.fin 100000) costfunc name now 2 brokers) t1 stock
    (.fin 10) (.fin 100) stoploss goalPrice planPrice fromPart
    (costfunc.getBuyCost t1 stock (.fin 10) (.fin 100)) 2 (.fin 1000)
  have hcash := buyFill_cash
    (OrderTradeManager.new t0 (.fin 100000) costfunc name now 2 brokers) t1 stock
    (.fin 10) (.fin 100) stoploss goalPrice planPrice fromPart
    (costfunc.getBuyCost t1 stock (.fin 10) (.fin 100)) 2 (.fin 1000)
  have hpos := buyFill_position
    (OrderTradeManager.new t0 (.fin 100000) costfunc name now 2 brokers) t1 stock
    (.fin 10) (.fin 100) stoploss goalPrice planPrice fromPart
    (costfunc.getBuyCost t1 stock (.fin 10) (.fin 100)) 2 (.fin 1000)
  have hlast := buyFill_last_datetime
    (OrderTradeManager.new t0 (.fin 100000) costfunc name now 2 brokers) t1 stock
    (.fin 10) (.fin 100) stoploss goalPrice planPrice fromPart
    (costfunc.getBuyCost t1 stock (.fin 10) (.fin 100)) 2 (.fin 1000)
  rw [← e1] at hprec hcost hcash hpos hlast
  generalize buy (OrderTradeManager.new t0 (.fin 100000) costfunc name now 2 brokers) t1 stock
      (.fin 10) (.fin 100) stoploss goalPrice planPrice fromPart = o1 at *
  have hcash2 : o1.tm.m_cash = .fin 98995 := by
    rw [hcash, hbuy]
    norm_num [OrderTradeManager.new, roundQ]
  have hpos2 : o1.tm.m_position
      = [(stock.id, ⟨stock, t1, none, .fin 100, stoploss, goalPrice, .fin 100, .fin 1000,
          (costfunc.getBuyCost t1 stock (.fin 10) (.fin 100)).total,
          roundEx ((Dbl.fin 10 - stoploss) * Dbl.fin 100 * .fin stock.unit) 2, .fin 0⟩)] := by
    rw [hpos]
    simp [OrderTradeManager.new, mapFind, mapAssign]
  have hlast2 : o1.tm.m_last_datetime = t0 := by rw [hlast]; rfl
  have hx1 : ¬ t2 < t0 := not_lt.mpr ht2
  have hx2 : ¬ (100 : ℚ) < stock.minTradeNumber := not_lt.mpr hmin
  have hx3 : ¬ stock.maxTradeNumber < (100 : ℚ) := not_lt.mpr hmax
  have e2 : sell o1.tm t2 stock (.fin 11) number2 stoploss2 goalPrice2 planPrice2 fromPart2
      = some (sellFill o1.tm t2 stock (.fin 11) stoploss2 goalPrice2 planPrice2 fromPart2
          ⟨stock, t1, none, .fin 100, stoploss, goalPrice, .fin 100, .fin 1000,
            (costfunc.getBuyCost t1 stock (.fin 10) (.fin 100)).total,
            roundEx ((Dbl.fin 10 - stoploss) * Dbl.fin 100 * .fin stock.unit) 2, .fin 0⟩
          (.fin 100)) := by
    rcases hall with hnum | hnum
    · subst hnum
      simp [sell, hpos2, hlast2, lastDatetime, mapFind, Dbl.isnan, Dbl.ne, Dbl.gt, hvalid, hx1,
        hx2, hx3]
    · obtain ⟨M, hM, hMpos⟩ := MAX_DOUBLE_pos
      subst hnum
      have hM100 : (100 : ℚ) ≤ M := by
        have h := hM
        unfold MAX_DOUBLE at h
        injection h with h
        rw [← h]
        norm_num
      have hy1 : ¬ M = 0 := ne_of_gt hMpos
      have hy2 : ¬ M < stock.minTradeNumber := not_lt.mpr (le_trans hmin hM100)
      simp [sell, hM, hpos2, hlast2, lastDatetime, mapFind, Dbl.isnan, Dbl.ne, Dbl.gt, hvalid,
        hx1, hy1, hy2]
  refine ⟨o1, _, _, rfl, ?_, hcash2, hpos2, rfl, e2, ?_, ?_, ?_, ?_, ?_⟩
  · rw [e1, buyFill_record]
  · rw [sellFill_record]
  · rw [sellFill_record]
  · rw [sellFill_record]
    simp only [hunit, Dbl.fin_mul_fin, roundEx_fin]
    norm_num [roundQ]
  · rw [sellFill_cash, getSellCost, hcost, hprec, hcash2]
    simp only [OrderTradeManager.new, hsell, hunit, Dbl.fin_mul_fin, Dbl.fin_add_fin,
      Dbl.fin_sub_fin, roundEx_fin]
    norm_num [roundQ]
  · rw [sellFill_position, hpos2]
    simp [mapErase]

theorem end_to_end_witness :
    exStock.isNull = false ∧ exStock.unit = 1 ∧
    ∃ o1 position o2,
      buy (OrderTradeManager.new 0 (.fin 100000) (fixedCost 5 (11 / 2)) "SYS" 0 2 []) 10 exStock
        (.fin 10) (.fin 100) (.fin 9) (.fin 12) (.fin 10) 0 = o1 ∧
      o1.record.business = .BUSINESS_BUY ∧
      o1.tm.m_cash = .fin 98995 ∧
      o1.tm.m_position = [(exStock.id, position)] ∧
      position.number = .fin 100 ∧
      sell o1.tm 20 exStock (.fin 11) MAX_DOUBLE (.fin 9) (.fin 12) (.fin 11) 0 = some o2 ∧
      o2.record.business = .BUSINESS_SELL ∧
      o2.record.number = .fin 100 ∧
      roundEx (Dbl.fin 11 * o2.record.number * .fin exStock.unit) 2 = .fin 1100 ∧
      o2.tm.m_cash = .fin (10008950 / 100) ∧
      o2.tm.m_position = [] :=
  ⟨rfl, rfl,
    end_to_end 0 0 10 20 (fixedCost 5 (11 / 2)) "SYS" [] exStock (.fin 9) (.fin 12) (.fin 10)
      (.fin 9) (.fin 12) (.fin 11) 0 0 MAX_DOUBLE rfl rfl (by norm_num [exStock])
      (by norm_num [exStock]) (by decide) (by decide) rfl rfl (Or.inr rfl)⟩

/-! ## Broker forwarding -/

/-- The marker after the broker loop: `datetime` when some sink answers with a non-empty
string and `datetime` is later than the marker, the old marker otherwise. -/
theorem brokerLoop_eq (call : OrderBroker → String) (datetime : Datetime)
    (brokers : List OrderBroker) (last : Datetime) :
    brokerLoop call datetime brokers last
      = if (brokers.any fun b => !(call b).isEmpty) && decide (datetime > last) then datetime
        else last := by
  induction brokers generalizing last with
  | nil => simp [brokerLoop]
  | cons b rest ih =>
    simp only [brokerLoop, ih, List.any_cons]
    by_cases hb : (call b).isEmpty = true <;> by_cases hd : datetime > last <;>
      simp [hb, hd]

/-- The loop written with its side effects makes the calls of `brokerCalls` and ends with
the marker of `brokerLoop`. -/
theorem brokerLoopTrace_eq (call : OrderBroker → String) (mk : Nat → BrokerCall)
    (datetime : Datetime) (brokers : List OrderBroker) (i : Nat) (last : Datetime)
    (log : List BrokerCall) :
    brokerLoopTrace call mk datetime brokers i last log
      = (brokerLoop call datetime brokers last,
          log ++ (List.range' i brokers.length).map mk) := by
  induction brokers generalizing i last log with
  | nil => simp [brokerLoopTrace, brokerLoop]
  | cons b rest ih =>
    simp only [brokerLoopTrace, brokerLoop, ih, List.length_cons, List.range'_succ,
      List.map_cons, List.append_assoc, List.singleton_append]

theorem brokerLoopTrace_buy (tm : OrderTradeManager) (datetime : Datetime) (stock : Stock)
    (realPrice : price_t) (number : Dbl) :
    brokerLoopTrace (fun b => b.buy datetime stock.market stock.code realPrice number)
        (fun i => ⟨i, .BUSINESS_BUY, datetime, stock.market, stock.code, realPrice, number⟩)
        datetime tm.m_broker_list 0 tm.m_broker_last_datetime []
      = (brokerLoop (fun b => b.buy datetime stock.market stock.code realPrice number) datetime
            tm.m_broker_list tm.m_broker_last_datetime,
          brokerCalls .BUSINESS_BUY datetime stock realPrice number tm.m_broker_list) := by
  rw [brokerLoopTrace_eq, brokerCalls, List.range_eq_range']
  rfl

theorem buyFill_broker (tm : OrderTradeManager) (datetime : Datetime) (stock : Stock)
    (realPrice : price_t) (number : Dbl) (stoploss goalPrice planPrice : price_t)
    (fromPart : SystemPart) (cost : CostRecord) (precision : Int) (money : price_t) :
    ((buyFill tm datetime stock realPrice number stoploss goalPrice planPrice fromPart cost
        precision money).tm.m_broker_last_datetime,
      (buyFill tm datetime stock realPrice number stoploss goalPrice planPrice fromPart cost
        precision money).calls)
      = if datetime > tm.m_broker_last_datetime then
          (brokerLoop (fun b => b.buy datetime stock.market stock.code realPrice number) datetime
              tm.m_broker_list tm.m_broker_last_datetime,
            brokerCalls .BUSINESS_BUY datetime stock realPrice number tm.m_broker_list)
        else (tm.m_broker_last_datetime, []) := by
  unfold buyFill
  simp only []
  split_ifs <;> rfl

theorem sellFill_broker (tm : OrderTradeManager) (datetime : Datetime) (stock : Stock)
    (realPrice : price_t) (stoploss goalPrice planPrice : price_t) (fromPart : SystemPart)
    (position : PositionRecord) (real_number : Dbl) :
    ((sellFill tm datetime stock realPrice stoploss goalPrice planPrice fromPart position
        real_number).tm.m_broker_last_datetime,
      (sellFill tm datetime stock realPrice stoploss goalPrice planPrice fromPart position
        real_number).calls)
      = if datetime > tm.m_broker_last_datetime then
          (brokerLoop (fun b => b.sell datetime stock.market stock.code realPrice real_number)
              datetime tm.m_broker_list tm.m_broker_last_datetime,
            brokerCalls .BUSINESS_SELL datetime stock realPrice real_number tm.m_broker_list)
        else (tm.m_broker_last_datetime, []) := by
  unfold sellFill
  simp only []
  split_ifs <;> rfl

/-- What the forwarding of one fill does, given the sink's answers `ack`: the calls made and
the marker afterwards. -/
theorem forwarding_spec (call : OrderBroker → String) (business : BUSINESS)
    (datetime : Datetime) (stock : Stock) (realPrice : price_t) (number : Dbl)
    (brokers : List OrderBroker) (last : Datetime) (marker : Datetime) (calls : List BrokerCall)
    (h : (marker, calls)
      = if datetime > last then
          (brokerLoop call datetime brokers last,
            brokerCalls business datetime stock realPrice number brokers)
        else (last, [])) :
    (datetime > last →
      calls = (List.range brokers.length).map
          (fun i => ⟨i, business, datetime, stock.market, stock.code, realPrice, number⟩) ∧
      ((∃ b ∈ brokers, (call b).isEmpty = false) → marker = datetime) ∧
      ((∀ b ∈ brokers, (call b).isEmpty = true) → marker = last)) ∧
    (¬ datetime > last → calls = [] ∧ marker = last) := by
  constructor
  · intro hd
    rw [if_pos hd, brokerLoop_eq] at h
    simp only [Prod.mk.injEq] at h
    obtain ⟨hm, hc⟩ := h
    refine ⟨by rw [hc]; rfl, ?_, ?_⟩
    · rintro ⟨b, hb, hne⟩
      rw [hm, if_pos]
      simp only [Bool.and_eq_true, List.any_eq_true, decide_eq_true_eq]
      exact ⟨⟨b, hb, by simp [hne]⟩, hd⟩
    · intro hall
      rw [hm, if_neg]
      simp only [Bool.and_eq_true, List.any_eq_true, decide_eq_true_eq, not_and]
      rintro ⟨b, hb, hne⟩
      simp [hall b hb] at hne
  · intro hd
    rw [if_neg hd] at h
    simp only [Prod.mk.injEq] at h
    exact ⟨h.2, h.1⟩

/-- C12. For an accepted buy or sell whose time is strictly after the broker-forwarded marker,
every registered sink is called exactly once, in registration order, with (time, market,
code, realPrice, traded number); afterwards the marker is the fill time if some sink returned a
non-empty acknowledgement and is unchanged if none did.  When the time is not strictly after
the marker no sink is called and the marker is unchanged. -/
theorem broker_forwarding (tm : OrderTradeManager) (datetime : Datetime) (stock : Stock)
    (realPrice : price_t) (number : Dbl) (stoploss goalPrice planPrice : price_t)
    (fromPart : SystemPart) :
    ((buy tm datetime stock realPrice number stoploss goalPrice planPrice
        fromPart).record.business = .BUSINESS_BUY →
      (datetime > tm.m_broker_last_datetime →
        (buy tm datetime stock realPrice number stoploss goalPrice planPrice fromPart).calls
          = (List.range tm.m_broker_list.length).map
              (fun i => ⟨i, .BUSINESS_BUY, datetime, stock.market, stock.code, realPrice,
                number⟩) ∧
        ((∃ b ∈ tm.m_broker_list,
            (b.buy datetime stock.market stock.code realPrice number).isEmpty = false) →
          (buy tm datetime stock realPrice number stoploss goalPrice planPrice
            fromPart).tm.m_broker_last_datetime = datetime) ∧
        ((∀ b ∈ tm.m_broker_list,
            (b.buy datetime stock.market stock.code realPrice number).isEmpty = true) →
          (buy tm datetime stock realPrice number stoploss goalPrice planPrice
            fromPart).tm.m_broker_last_datetime = tm.m_broker_last_datetime)) ∧
      (¬ datetime > tm.m_broker_last_datetime →
        (buy tm datetime stock realPrice number stoploss goalPrice planPrice fromPart).calls
          = [] ∧
        (buy tm datetime stock realPrice number stoploss goalPrice planPrice
          fromPart).tm.m_broker_last_datetime = tm.m_broker_last_datetime)) ∧
    (∀ o, sell tm datetime stock realPrice number stoploss goalPrice planPrice fromPart = some o →
      o.record.business = .BUSINESS_SELL →
      (datetime > tm.m_broker_last_datetime →
        o.calls
          = (List.range tm.m_broker_list.length).map
              (fun i => ⟨i, .BUSINESS_SELL, datetime, stock.market, stock.code, realPrice,
                o.record.number⟩) ∧
        ((∃ b ∈ tm.m_broker_list,
            (b.sell datetime stock.market stock.code realPrice o.record.number).isEmpty
              = false) →
          o.tm.m_broker_last_datetime = datetime) ∧
        ((∀ b ∈ tm.m_broker_list,
            (b.sell datetime stock.market stock.code realPrice o.record.number).isEmpty
              = true) →
          o.tm.m_broker_last_datetime = tm.m_broker_last_datetime)) ∧
      (¬ datetime > tm.m_broker_last_datetime →
        o.calls = [] ∧ o.tm.m_broker_last_datetime = tm.m_broker_last_datetime)) := by
  constructor
  · intro h
    rcases buy_cases tm datetime stock realPrice number stoploss goalPrice planPrice fromPart
      with ⟨hb, _⟩ | ⟨hb, _⟩
    · rw [hb] at h; simp [Null_TradeRecord] at h
    · rw [hb]
      exact forwarding_spec _ _ _ _ _ _ _ _ _ _ (buyFill_broker tm datetime stock realPrice
        number stoploss goalPrice planPrice fromPart _ _ _)
  · intro o h hs
    have hn : number.isnan = false := by
      cases hnan : number.isnan
      · rfl
      · simp [sell, hnan] at h
    rcases sell_cases tm datetime stock realPrice number stoploss goalPrice planPrice fromPart hn
      with ⟨hb, _⟩ | ⟨position, _, hb, _⟩
    · rw [hb] at h
      simp only [Option.some.injEq] at h
      subst h
      simp [Null_TradeRecord] at hs
    · rw [hb] at h
      simp only [Option.some.injEq] at h
      subst h
      rw [sellFill_record]
      exact forwarding_spec _ _ _ _ _ _ _ _ _ _ (sellFill_broker tm datetime stock realPrice
        stoploss goalPrice planPrice fromPart position _)

theorem exLedgerB_buy_eq :
    buy exLedgerB 10 exStock (.fin 10) (.fin 100) (.fin 9) (.fin 12) (.fin 10) 0
      = buyFill exLedgerB 10 exStock (.fin 10) (.fin 100) (.fin 9) (.fin 12) (.fin 10) 0
          ⟨.fin 5, .fin 0, .fin 0, .fin 0, .fin 5⟩ 2 (.fin 1000) := by
  norm_num [buy, exLedgerB, exStock, fixedCost, OrderTradeManager.new, lastDatetime, Dbl.gt,
    getBuyCost, roundQ]

theorem broker_forwarding_witness :
    (buy exLedgerB 10 exStock (.fin 10) (.fin 100) (.fin 9) (.fin 12) (.fin 10)
      0).record.business = .BUSINESS_BUY ∧
    (10 : Datetime) > exLedgerB.m_broker_last_datetime ∧
    (buy exLedgerB 10 exStock (.fin 10) (.fin 100) (.fin 9) (.fin 12) (.fin 10) 0).calls
      = [⟨0, .BUSINESS_BUY, 10, "SH", "600000", .fin 10, .fin 100⟩,
          ⟨1, .BUSINESS_BUY, 10, "SH", "600000", .fin 10, .fin 100⟩] ∧
    (buy exLedgerB 10 exStock (.fin 10) (.fin 100) (.fin 9) (.fin 12) (.fin 10)
      0).tm.m_broker_last_datetime = 10 := by
  have hb : (buy exLedgerB 10 exStock (.fin 10) (.fin 100) (.fin 9) (.fin 12) (.fin 10)
      0).record.business = .BUSINESS_BUY := by
    rw [exLedgerB_buy_eq, buyFill_record]
  have hd : (10 : Datetime) > exLedgerB.m_broker_last_datetime := by
    simp [exLedgerB, OrderTradeManager.new]
  have h := ((broker_forwarding exLedgerB 10 exStock (.fin 10) (.fin 100) (.fin 9) (.fin 12)
    (.fin 10) 0).1 hb).1 hd
  refine ⟨hb, hd, ?_, ?_⟩
  · rw [h.1]
    simp [exLedgerB, OrderTradeManager.new, exStock, List.range_succ]
  · exact h.2.1 ⟨exBrokerAck, by simp [exLedgerB, OrderTradeManager.new], by
      simp [exBrokerAck, String.isEmpty]; decide⟩

/-! ## Cash: deposits, precision and sign -/

theorem Dbl.isRounded_iff (x : Dbl) (ndigits : Int) :
    x.isRounded ndigits = true ↔ ∃ k : ℤ, x = .fin (k / (10 : ℚ) ^ ndigits) := by
  have hf : ((10 : ℚ) ^ ndigits) ≠ 0 := zpow_ne_zero _ (by norm_num)
  cases x with
  | nan => simp [Dbl.isRounded]
  | fin q =>
    simp only [Dbl.isRounded, decide_eq_true_eq, Dbl.fin.injEq]
    constructor
    · intro h
      refine ⟨(q * (10 : ℚ) ^ ndigits).num, ?_⟩
      rw [(Rat.den_eq_one_iff _).mp h, mul_div_cancel_right₀ _ hf]
    · rintro ⟨k, rfl⟩
      rw [div_mul_cancel₀ _ hf]
      exact Rat.den_intCast k

theorem roundQ_isRounded (q : ℚ) (ndigits : Int) :
    (Dbl.fin (roundQ q ndigits)).isRounded ndigits = true := by
  rw [Dbl.isRounded_iff]
  unfold roundQ
  simp only []
  split_ifs
  · exact ⟨_, rfl⟩
  · exact ⟨-⌊-q * (10 : ℚ) ^ ndigits + 1 / 2⌋, by rw [Int.cast_neg]⟩

/-- The result of `roundEx` is NaN or a value rounded to the given number of decimals. -/
theorem roundEx_isRounded (x : Dbl) (ndigits : Int) :
    roundEx x ndigits = .nan ∨ (roundEx x ndigits).isRounded ndigits = true := by
  cases x with
  | nan => exact Or.inl rfl
  | fin q => exact Or.inr (roundQ_isRounded q ndigits)

/-- After an accepted buy or sell the cash balance is the result of a rounding to the
ledger's precision: NaN or an integer multiple of `10^-precision`. -/
theorem cash_rounded_after_trade (tm : OrderTradeManager) (datetime : Datetime) (stock : Stock)
    (realPrice : price_t) (number : Dbl) (stoploss goalPrice planPrice : price_t)
    (fromPart : SystemPart) :
    ((buy tm datetime stock realPrice number stoploss goalPrice planPrice
        fromPart).record.business = .BUSINESS_BUY →
      (buy tm datetime stock realPrice number stoploss goalPrice planPrice fromPart).tm.m_cash
        = .nan ∨
      (buy tm datetime stock realPrice number stoploss goalPrice planPrice
        fromPart).tm.m_cash.isRounded tm.precision = true) ∧
    (∀ o, sell tm datetime stock realPrice number stoploss goalPrice planPrice fromPart = some o →
      o.record.business = .BUSINESS_SELL →
      o.tm.m_cash = .nan ∨ o.tm.m_cash.isRounded tm.precision = true) := by
  constructor
  · intro h
    rcases buy_cases tm datetime stock realPrice number stoploss goalPrice planPrice fromPart
      with ⟨hb, _⟩ | ⟨hb, _⟩
    · rw [hb] at h; simp [Null_TradeRecord] at h
    · rw [hb, buyFill_cash]
      exact roundEx_isRounded _ _
  · intro o h hs
    have hn : number.isnan = false := by
      cases hnan : number.isnan
      · rfl
      · simp [sell, hnan] at h
    rcases sell_cases tm datetime stock realPrice number stoploss goalPrice planPrice fromPart hn
      with ⟨hb, _⟩ | ⟨position, _, hb, _⟩
    · rw [hb] at h
      simp only [Option.some.injEq] at h
      subst h
      simp [Null_TradeRecord] at hs
    · rw [hb] at h
      simp only [Option.some.injEq] at h
      subst h
      rw [sellFill_cash]
      exact roundEx_isRounded _ _

/-- C13 fails on the code.  `checkin` adds the amount to the cash without rounding, unlike the
constructor, `buy` and `sell`: on the fresh example ledger (precision 2, cash 100000.00, a
rounded value) an accepted deposit of 0.001 leaves cash 100000.001, which is not an integer
multiple of 0.01. -/
theorem cash_precision_fails_on_checkin :
    exLedger.precision = 2 ∧
    exLedger.m_cash = .fin 100000 ∧
    exLedger.m_cash.isRounded exLedger.precision = true ∧
    (checkin exLedger 10 (.fin (1 / 1000))).1 = true ∧
    (run exLedger [.checkin 10 (.fin (1 / 1000))]).precision = 2 ∧
    (run exLedger [.checkin 10 (.fin (1 / 1000))]).m_cash = .fin (100000001 / 1000) ∧
    (run exLedger [.checkin 10 (.fin (1 / 1000))]).m_cash.isRounded 2 = false ∧
    ¬ ∃ k : ℤ, (run exLedger [.checkin 10 (.fin (1 / 1000))]).m_cash
      = .fin (k / (10 : ℚ) ^ (2 : Int)) := by
  have hc : exLedger.m_cash = .fin 100000 := by
    norm_num [exLedger, OrderTradeManager.new, roundQ]
  have hr : (run exLedger [.checkin 10 (.fin (1 / 1000))]).m_cash
      = .fin (100000001 / 1000) := by
    simp only [run, List.foldl_cons, List.foldl_nil, step, checkin]
    rw [if_neg (by simp [exLedger, OrderTradeManager.new])]
    simp only [hc, Dbl.fin_add_fin]
    norm_num
  have hnot : (Dbl.fin (100000001 / 1000)).isRounded 2 = false := by
    simp only [Dbl.isRounded, decide_eq_false_iff_not]
    norm_num
  refine ⟨rfl, hc, ?_, ?_, ?_, hr, ?_, ?_⟩
  · rw [hc]
    simp only [Dbl.isRounded, decide_eq_true_eq]
    norm_num [exLedger, OrderTradeManager.new]
  · simp [checkin, exLedger, OrderTradeManager.new]
  · simp only [run, List.foldl_cons, List.foldl_nil, step, checkin]
    rw [if_neg (by simp [exLedger, OrderTradeManager.new])]
    rfl
  · rw [hr]; exact hnot
  · rw [hr, ← Dbl.isRounded_iff, hnot]
    simp

/-- C14. `checkin(time, amount)` returns false and changes nothing when the time is earlier than
the ledger's last operation time; otherwise it returns true, the cash becomes cash + amount,
and nothing else changes, positions and broker-forwarded marker included. -/
theorem checkin_spec (tm : OrderTradeManager) (datetime : Datetime) (cash : price_t) :
    (datetime < lastDatetime tm → checkin tm datetime cash = (false, tm)) ∧
    (¬ datetime < lastDatetime tm →
      (checkin tm datetime cash).1 = true ∧
      (checkin tm datetime cash).2.m_cash = tm.m_cash + cash ∧
      (checkin tm datetime cash).2.m_position = tm.m_position ∧
      (checkin tm datetime cash).2.m_broker_last_datetime = tm.m_broker_last_datetime ∧
      (checkin tm datetime cash).2 = { tm with m_cash := tm.m_cash + cash }) := by
  constructor
  · intro h
    simp only [lastDatetime] at h
    simp [checkin, h]
  · intro h
    simp only [lastDatetime] at h
    simp [checkin, h]

theorem checkin_spec_witness :
    ((-1 : Datetime) < lastDatetime exLedger ∧
      checkin exLedger (-1) (.fin 50) = (false, exLedger)) ∧
    (¬ (10 : Datetime) < lastDatetime exLedger ∧
      (checkin exLedger 10 (.fin 50)).1 = true ∧
      (checkin exLedger 10 (.fin 50)).2.m_cash = exLedger.m_cash + .fin 50) := by
  have h1 : (-1 : Datetime) < lastDatetime exLedger := by
    simp [lastDatetime, exLedger, OrderTradeManager.new]
  have h2 : ¬ (10 : Datetime) < lastDatetime exLedger := by
    simp [lastDatetime, exLedger, OrderTradeManager.new]
  have g := (checkin_spec exLedger 10 (.fin 50)).2 h2
  exact ⟨⟨h1, (checkin_spec exLedger (-1) (.fin 50)).1 h1⟩, h2, g.1, g.2.1⟩

/-- Rounding the remainder after an affordable payment, on exact numbers: when `x` is not
negative and the available amount `c` is at least `x` rounded, `c - x` rounds to a value
that is not negative.  The doubles of the program do not inherit this: there the sum and
the difference are rounded before `roundEx` sees them. -/
theorem roundQ_sub_nonneg (c x : ℚ) (ndigits : Int) (hx : 0 ≤ x)
    (h : roundQ x ndigits ≤ c) : 0 ≤ roundQ (c - x) ndigits := by
  have hf : (0 : ℚ) < (10 : ℚ) ^ ndigits := zpow_pos (by norm_num) ndigits
  unfold roundQ at h ⊢
  simp only [] at h ⊢
  rw [if_pos hx] at h
  split_ifs with hy
  · apply div_nonneg _ hf.le
    have h0 : (0 : ℚ) ≤ (c - x) * (10 : ℚ) ^ ndigits + 1 / 2 := by positivity
    exact_mod_cast Int.floor_nonneg.mpr h0
  · have h1 : (⌊x * (10 : ℚ) ^ ndigits + 1 / 2⌋ : ℚ) ≤ c * (10 : ℚ) ^ ndigits :=
      (div_le_iff₀ hf).mp h
    have h2 : x * (10 : ℚ) ^ ndigits + 1 / 2 < (⌊x * (10 : ℚ) ^ ndigits + 1 / 2⌋ : ℚ) + 1 :=
      Int.lt_floor_add_one _
    have h3 : -(c - x) * (10 : ℚ) ^ ndigits + 1 / 2 < ((1 : ℤ) : ℚ) := by
      push_cast
      linarith
    have h4 : ⌊-(c - x) * (10 : ℚ) ^ ndigits + 1 / 2⌋ < 1 := Int.floor_lt.mpr h3
    have h5 : (⌊-(c - x) * (10 : ℚ) ^ ndigits + 1 / 2⌋ : ℚ) ≤ 0 := by
      exact_mod_cast Int.lt_add_one_iff.mp (by simpa using h4)
    apply div_nonneg _ hf.le
    linarith

theorem rnd64_of_bounds (q : ℚ) (e : Int) (h0 : -1022 ≤ e) (h1 : (2 : ℚ) ^ e ≤ |q|)
    (h2 : |q| < (2 : ℚ) ^ (e + 1)) :
    rnd64 q = (roundHalfEven (q / (2 : ℚ) ^ (e - 52)) : ℚ) * (2 : ℚ) ^ (e - 52) := by
  have hpos : 0 < |q| := lt_of_lt_of_le (zpow_pos (by norm_num) e) h1
  have hl : Int.log 2 |q| = e := by
    have a : e ≤ Int.log 2 |q| :=
      (Int.zpow_le_iff_le_log (by norm_num) hpos).mp (by simpa using h1)
    have b : Int.log 2 |q| < e + 1 :=
      (Int.lt_zpow_iff_log_lt (by norm_num) hpos).mp (by simpa using h2)
    omega
  unfold rnd64 ulpExp64
  rw [hl, max_eq_left h0]

/-- The double written `4941.23`. -/
theorem rnd64_cash : rnd64 4941.23 = 1358234960128901 / 2 ^ 38 := by
  rw [rnd64_of_bounds _ 12 (by norm_num) (by norm_num [abs_of_pos]) (by norm_num [abs_of_pos])]
  norm_num [roundHalfEven]

/-- The double written `49.4`. -/
theorem rnd64_price : rnd64 49.4 = 6952431924753203 / 2 ^ 47 := by
  rw [rnd64_of_bounds _ 5 (by norm_num) (by norm_num [abs_of_pos]) (by norm_num [abs_of_pos])]
  norm_num [roundHalfEven]

/-- The double written `1.235`. -/
theorem rnd64_cost : rnd64 1.235 = 5561945539802563 / 2 ^ 52 := by
  rw [rnd64_of_bounds _ 0 (by norm_num) (by norm_num [abs_of_pos]) (by norm_num [abs_of_pos])]
  norm_num [roundHalfEven]

/-- The double written `-0.01`. -/
theorem rnd64_cent : rnd64 (-0.01) = -(5764607523034235 / 2 ^ 59) := by
  rw [rnd64_of_bounds _ (-7) (by norm_num) (by norm_num [abs_of_pos]) (by norm_num [abs_of_pos])]
  norm_num [roundHalfEven]

/-- C20 fails on the code.  With the cash 4941.23, a buy of 100 units at 49.40 of an
instrument of unit 1, cost.total 1.235 and precision 2, all as doubles: the cash and
notional + cost.total are not negative; the amount the affordability check compares with,
round(4940.00 + 1.235), is 4941.23, the sum being a double below 4941.235, so the check
passes; and the new cash round(4941.23 - 4940.00 - 1.235) is the double -0.01, which is
negative. -/
theorem buy_cash_negative_in_doubles :
    0 ≤ rnd64 4941.23 ∧
    0 ≤ add64 (roundEx64 (mul64 (mul64 (rnd64 49.4) 100) 1) 2) (rnd64 1.235) ∧
    add64 (roundEx64 (mul64 (mul64 (rnd64 49.4) 100) 1) 2) (rnd64 1.235) < 4941.235 ∧
    roundEx64 (add64 (roundEx64 (mul64 (mul64 (rnd64 49.4) 100) 1) 2) (rnd64 1.235)) 2
      = rnd64 4941.23 ∧
    buyCash64 (rnd64 4941.23) (rnd64 49.4) 100 1 (rnd64 1.235) 2 = some (rnd64 (-0.01)) ∧
    rnd64 (-0.01) < 0 := by
  have e1 : mul64 (rnd64 49.4) 100 = 4940 := by
    rw [rnd64_price]; unfold mul64
    rw [rnd64_of_bounds _ 12 (by norm_num) (by norm_num [abs_of_pos]) (by norm_num [abs_of_pos])]
    norm_num [roundHalfEven]
  have r4940 : rnd64 4940 = 4940 := by
    rw [rnd64_of_bounds _ 12 (by norm_num) (by norm_num [abs_of_pos]) (by norm_num [abs_of_pos])]
    norm_num [roundHalfEven]
  have e2 : mul64 4940 1 = 4940 := by
    unfold mul64; rw [mul_one, r4940]
  have e3 : roundEx64 4940 2 = 4940 := by
    unfold roundEx64
    rw [show roundQ 4940 2 = 4940 by norm_num [roundQ], r4940]
  have e4 : add64 4940 (rnd64 1.235) = 5432945338073743 / 2 ^ 40 := by
    rw [rnd64_cost]; unfold add64
    rw [rnd64_of_bounds _ 12 (by norm_num) (by norm_num [abs_of_pos]) (by norm_num [abs_of_pos])]
    norm_num [roundHalfEven]
  have e5 : roundEx64 (5432945338073743 / 2 ^ 40) 2 = rnd64 4941.23 := by
    unfold roundEx64
    rw [show roundQ (5432945338073743 / 2 ^ 40) 2 = 4941.23 by norm_num [roundQ]]
  have e6 : sub64 (rnd64 4941.23) 4940 = 338099825541 / 2 ^ 38 := by
    rw [rnd64_cash]; unfold sub64
    rw [rnd64_of_bounds _ 0 (by norm_num) (by norm_num [abs_of_pos]) (by norm_num [abs_of_pos])]
    norm_num [roundHalfEven]
  have e7 : sub64 (338099825541 / 2 ^ 38) (rnd64 1.235) = -(22517998138819 / 2 ^ 52) := by
    rw [rnd64_cost]; unfold sub64
    rw [rnd64_of_bounds _ (-8) (by norm_num) (by norm_num [abs_of_pos])
      (by norm_num [abs_of_pos])]
    norm_num [roundHalfEven]
  have e8 : roundEx64 (-(22517998138819 / 2 ^ 52)) 2 = rnd64 (-0.01) := by
    unfold roundEx64
    rw [show roundQ (-(22517998138819 / 2 ^ 52)) 2 = -0.01 by norm_num [roundQ]]
  refine ⟨?_, ?_, ?_, ?_, ?_, ?_⟩
  · rw [rnd64_cash]; norm_num
  · rw [e1, e2, e3, e4]; norm_num
  · rw [e1, e2, e3, e4]; norm_num
  · rw [e1, e2, e3, e4, e5]
  · simp only [buyCash64, e1, e2, e3, e4, e5, e6, e7, e8, lt_irrefl, if_false]
  · rw [rnd64_cent]; norm_num

/-! ## The event loop -/

theorem startEventLoop_some (clears : Callback → Bool) (task : Callback)
    (queue : List event_type) (invoked : List Callback) :
    _startEventLoop clears (some task :: queue) true invoked
      = _startEventLoop clears queue (!clears task) (invoked ++ [task]) := by
  rw [_startEventLoop]

theorem startEventLoop_append (clears : Callback → Bool) (pre : List Callback)
    (queue : List event_type) (invoked : List Callback) (h : ∀ t ∈ pre, clears t = false) :
    _startEventLoop clears (pre.map some ++ queue) true invoked
      = _startEventLoop clears queue true (invoked ++ pre) := by
  induction pre generalizing invoked with
  | nil => simp
  | cons t rest ih =>
    have ht : clears t = false := h t (List.mem_cons_self _ _)
    rw [List.map_cons, List.cons_append, startEventLoop_some, ht, Bool.not_false,
      ih _ (fun t2 h2 => h t2 (List.mem_cons_of_mem _ h2)), List.append_assoc,
      List.singleton_append]

/-- C15. Started with the run flag set on a queue holding the events `pre`, then the shutdown
sentinel, then `post`, where no callback of `pre` clears the run flag, the loop invokes the
events of `pre` in order, each once, and nothing else; on dequeuing the sentinel it clears the
run flag and returns without invoking it, leaving `post` in the queue, never invoked.  With
no sentinel in the queue it invokes every event in order and then waits for the next one. -/
theorem event_loop_spec (clears : Callback → Bool) (pre : List Callback)
    (post : List event_type) (h : ∀ t ∈ pre, clears t = false) :
    _startEventLoop clears (pre.map some ++ none :: post) true []
      = { ms_keep_running := false, m_event_queue := post, invoked := pre, waiting := false } ∧
    _startEventLoop clears (pre.map some) true []
      = { ms_keep_running := true, m_event_queue := [], invoked := pre, waiting := true } := by
  constructor
  · rw [startEventLoop_append clears pre _ _ h]
    simp [_startEventLoop]
  · have := startEventLoop_append clears pre [] [] h
    simp only [List.append_nil, List.nil_append] at this
    rw [this]
    simp [_startEventLoop]

theorem event_loop_spec_witness :
    (∀ t ∈ [Callback.onTick, Callback.onBar "DAY"], (fun _ => false) t = false) ∧
    _startEventLoop (fun _ => false)
        [some .onTick, some (.onBar "DAY"), none, some .onMarketClose, some .onTick] true []
      = { ms_keep_running := false, m_event_queue := [some .onMarketClose, some .onTick],
          invoked := [.onTick, .onBar "DAY"], waiting := false } :=
  ⟨fun _ _ => rfl,
    (event_loop_spec (fun _ => false) [.onTick, .onBar "DAY"]
      [some .onMarketClose, some .onTick] (fun _ _ => rfl)).1⟩

/-! ## Timer registration -/

/-- C16, as stated, fails.  With the market-event parameter true and a market that has no
session with open before close, the derived window is (23:59:59.999999, 0), and `_addTimer`
registers nothing: no clock event, and no market-open or market-close event either. -/
theorem invalid_window_counterexample :
    (fun _ : String => true) "enable_market_event" = true ∧
    tradingWindow (fun _ => exClosedMarket) ["SH"] = (86399999999, 0) ∧
    (tradingWindow (fun _ => exClosedMarket) ["SH"]).1
      ≥ (tradingWindow (fun _ => exClosedMarket) ["SH"]).2 ∧
    _addTimer (fun _ => exClosedMarket) (fun _ => true) [exStock] = [] ∧
    (∀ time, Registration.addFuncAtTimeEveryDay time (.enqueue .onMarketOpen)
      ∉ _addTimer (fun _ => exClosedMarket) (fun _ => true) [exStock]) := by
  have hw : tradingWindow (fun _ => exClosedMarket) ["SH"] = (86399999999, 0) := by
    simp [tradingWindow, windowStep, exClosedMarket, TimeDelta.new]
  have ht : _addTimer (fun _ => exClosedMarket) (fun _ => true) [exStock] = [] := by
    have hm : ([exStock].map fun stk => stk.market).dedup = ["SH"] := by
      simp [exStock]
    simp only [_addTimer, hm, hw]
    simp
  refine ⟨rfl, hw, ?_, ht, ?_⟩
  · rw [hw]; decide
  · intro time
    rw [ht]
    simp

/-- C16, amended.  When the derived window has open >= close, `_addTimer` registers nothing
with the scheduler: no clock event, and no market-open or market-close event either, whatever
the `enable_market_event` parameter is.  When the window has open < close and the parameter
is true, the first two registrations are the market-open event at the derived open time and
the market-close event at the derived close time. -/
theorem invalid_window_registers_nothing (getMarketInfo : String → MarketInfo)
    (getParam : String → Bool) (m_stock_list : List Stock) :
    ((tradingWindow getMarketInfo (m_stock_list.map fun stk => stk.market).dedup).1
        ≥ (tradingWindow getMarketInfo (m_stock_list.map fun stk => stk.market).dedup).2 →
      _addTimer getMarketInfo getParam m_stock_list = []) ∧
    ((tradingWindow getMarketInfo (m_stock_list.map fun stk => stk.market).dedup).1
        < (tradingWindow getMarketInfo (m_stock_list.map fun stk => stk.market).dedup).2 →
      getParam "enable_market_event" = true →
      ∃ clocks, _addTimer getMarketInfo getParam m_stock_list
        = .addFuncAtTimeEveryDay
            (tradingWindow getMarketInfo (m_stock_list.map fun stk => stk.market).dedup).1
            (.enqueue .onMarketOpen)
          :: .addFuncAtTimeEveryDay
            (tradingWindow getMarketInfo (m_stock_list.map fun stk => stk.market).dedup).2
            (.enqueue .onMarketClose)
          :: clocks) := by
  constructor
  · intro h
    simp only [_addTimer, if_pos h]
  · intro h hp
    simp only [_addTimer, if_neg (not_le.mpr h), hp, if_true, List.cons_append,
      List.nil_append, List.append_assoc]
    exact ⟨_, rfl⟩

theorem invalid_window_registers_nothing_witness :
    (tradingWindow (fun _ => exClosedMarket) ([exStock].map fun stk => stk.market).dedup).1
      ≥ (tradingWindow (fun _ => exClosedMarket) ([exStock].map fun stk => stk.market).dedup).2 ∧
    _addTimer (fun _ => exClosedMarket) (fun _ => true) [exStock] = [] := by
  have hm : ([exStock].map fun stk => stk.market).dedup = ["SH"] := by
    simp [exStock]
  have h : (tradingWindow (fun _ => exClosedMarket)
        ([exStock].map fun stk => stk.market).dedup).1
      ≥ (tradingWindow (fun _ => exClosedMarket)
        ([exStock].map fun stk => stk.market).dedup).2 := by
    rw [hm]
    simp [tradingWindow, windowStep, exClosedMarket, TimeDelta.new]
  exact ⟨h, (invalid_window_registers_nothing (fun _ => exClosedMarket) (fun _ => true)
    [exStock]).1 h⟩

/-- The repeat count fits the `int` type for every window inside a day and every interval of
at least one millisecond, so for each of the nine clock granularities. -/
theorem repeat_fits_within_day (interval openTime closeTime : TimeDelta)
    (h0 : 0 ≤ openTime) (h1 : closeTime ≤ TimeDelta.new 0 23 59 59 999 999)
    (hi : 1000 ≤ interval) : (closeTime - openTime) / interval < 2 ^ 31 := by
  have hpos : (0 : Int) < interval := lt_of_lt_of_le (by norm_num) hi
  apply Int.ediv_lt_of_lt_mul hpos
  have h2 : closeTime - openTime ≤ 86399999999 := by
    have : TimeDelta.new 0 23 59 59 999 999 = 86399999999 := by decide
    rw [this] at h1
    exact le_trans (sub_le_self _ h0) h1
  have h3 : (2 : Int) ^ 31 * 1000 ≤ 2 ^ 31 * interval :=
    mul_le_mul_of_nonneg_left hi (by norm_num)
  exact lt_of_le_of_lt h2 (lt_of_lt_of_le (by norm_num) h3)

/-! ## The trading window -/

/-- One session applied to the pair (openTime, closeTime). -/
theorem windowStep_eq (w : TimeDelta × TimeDelta) (market_info : MarketInfo) :
    windowStep w market_info
      = ((sessionsOf market_info).filter fun s => decide (s.1 < s.2)).foldl
          (fun a s => (min s.1 a.1, max s.2 a.2)) w := by
  have hmin : ∀ a b : TimeDelta, (if a < b then a else b) = min a b := by
    intro a b
    rcases lt_or_le a b with h | h
    · rw [if_pos h, min_eq_left h.le]
    · rw [if_neg (not_lt.mpr h), min_eq_right h]
  have hmax : ∀ a b : TimeDelta, (if a > b then a else b) = max a b := by
    intro a b
    rcases lt_or_le b a with h | h
    · rw [if_pos h, max_eq_left h.le]
    · rw [if_neg (not_lt.mpr h), max_eq_right h]
  unfold windowStep sessionsOf
  simp only [hmin, hmax]
  by_cases h1 : market_info.openTime1 < market_info.closeTime1 <;>
    by_cases h2 : market_info.openTime2 < market_info.closeTime2 <;>
    simp [List.filter, h1, h2]

theorem tradingWindow_fold (getMarketInfo : String → MarketInfo) (market_set : List String)
    (w : TimeDelta × TimeDelta) :
    market_set.foldl (fun w market => windowStep w (getMarketInfo market)) w
      = (validSessions getMarketInfo market_set).foldl
          (fun a s => (min s.1 a.1, max s.2 a.2)) w := by
  induction market_set generalizing w with
  | nil => rfl
  | cons m rest ih =>
    rw [List.foldl_cons, ih, windowStep_eq]
    simp only [validSessions, List.flatMap_cons, List.filter_append, List.foldl_append]

theorem foldSessions_spec (sessions : List (TimeDelta × TimeDelta)) (w : TimeDelta × TimeDelta) :
    (sessions.foldl (fun a s => (min s.1 a.1, max s.2 a.2)) w).1 ≤ w.1 ∧
    w.2 ≤ (sessions.foldl (fun a s => (min s.1 a.1, max s.2 a.2)) w).2 ∧
    (∀ s ∈ sessions,
      (sessions.foldl (fun a s => (min s.1 a.1, max s.2 a.2)) w).1 ≤ s.1 ∧
      s.2 ≤ (sessions.foldl (fun a s => (min s.1 a.1, max s.2 a.2)) w).2) ∧
    ((sessions.foldl (fun a s => (min s.1 a.1, max s.2 a.2)) w).1 = w.1 ∨
      ∃ s ∈ sessions, s.1 = (sessions.foldl (fun a s => (min s.1 a.1, max s.2 a.2)) w).1) ∧
    ((sessions.foldl (fun a s => (min s.1 a.1, max s.2 a.2)) w).2 = w.2 ∨
      ∃ s ∈ sessions, s.2 = (sessions.foldl (fun a s => (min s.1 a.1, max s.2 a.2)) w).2) := by
  induction sessions generalizing w with
  | nil => simp
  | cons s rest ih =>
    simp only [List.foldl_cons]
    obtain ⟨i1, i2, i3, i4, i5⟩ := ih (min s.1 w.1, max s.2 w.2)
    simp only at i1 i2 i4 i5
    refine ⟨le_trans i1 (min_le_right _ _), le_trans (le_max_right _ _) i2, ?_, ?_, ?_⟩
    · intro s2 hs2
      rcases List.mem_cons.mp hs2 with h | h
      · subst h
        exact ⟨le_trans i1 (min_le_left _ _), le_trans (le_max_left _ _) i2⟩
      · exact i3 s2 h
    · rcases i4 with h | ⟨s2, hs2, h⟩
      · rcases min_choice s.1 w.1 with hm | hm
        · exact Or.inr ⟨s, List.mem_cons_self _ _, by rw [h, hm]⟩
        · exact Or.inl (by rw [h, hm])
      · exact Or.inr ⟨s2, List.mem_cons_of_mem _ hs2, h⟩
    · rcases i5 with h | ⟨s2, hs2, h⟩
      · rcases max_choice s.2 w.2 with hm | hm
        · exact Or.inr ⟨s, List.mem_cons_self _ _, by rw [h, hm]⟩
        · exact Or.inl (by rw [h, hm])
      · exact Or.inr ⟨s2, List.mem_cons_of_mem _ hs2, h⟩

/-- C18, as stated, fails.  For a market whose only session with open before close is
25:00-26:00, the derived open time is 23:59:59.999999, the value the derivation starts from,
and not 25:00, the minimum of the open times of those sessions. -/
theorem trading_window_counterexample :
    validSessions (fun _ => exLateMarket) ["X"] = [(90000000000, 93600000000)] ∧
    tradingWindow (fun _ => exLateMarket) ["X"] = (86399999999, 93600000000) ∧
    (tradingWindow (fun _ => exLateMarket) ["X"]).1 ≠ 90000000000 := by
  have hw : tradingWindow (fun _ => exLateMarket) ["X"] = (86399999999, 93600000000) := by
    simp [tradingWindow, windowStep, exLateMarket, TimeDelta.new]
  refine ⟨?_, hw, ?_⟩
  · simp [validSessions, sessionsOf, exLateMarket, TimeDelta.new, List.filter]
  · rw [hw]; decide

/-- C18, amended.  For every list of markets whose session times lie within a day (at least 0
and at most 23:59:59.999999): the derived open time is at most the open time, and the
derived close time at least the close time, of every session whose open is strictly before
its close; when there is such a session, the derived open time is the open time of one of
them and the derived close time the close time of one of them, so they are the minimum and
the maximum; when there is none, the derived pair is (23:59:59.999999, 0).  Sessions with
open >= close contribute to neither bound. -/
theorem trading_window_derivation (getMarketInfo : String → MarketInfo)
    (market_set : List String)
    (hday : ∀ market ∈ market_set, ∀ s ∈ sessionsOf (getMarketInfo market),
      0 ≤ s.1 ∧ s.1 ≤ TimeDelta.new 0 23 59 59 999 999 ∧
      0 ≤ s.2 ∧ s.2 ≤ TimeDelta.new 0 23 59 59 999 999) :
    (∀ s ∈ validSessions getMarketInfo market_set,
      (tradingWindow getMarketInfo market_set).1 ≤ s.1 ∧
      s.2 ≤ (tradingWindow getMarketInfo market_set).2) ∧
    (validSessions getMarketInfo market_set ≠ [] →
      (∃ s ∈ validSessions getMarketInfo market_set,
        s.1 = (tradingWindow getMarketInfo market_set).1) ∧
      (∃ s ∈ validSessions getMarketInfo market_set,
        s.2 = (tradingWindow getMarketInfo market_set).2)) ∧
    (validSessions getMarketInfo market_set = [] →
      tradingWindow getMarketInfo market_set
        = (TimeDelta.new 0 23 59 59 999 999, TimeDelta.new 0 0 0 0 0 0)) := by
  have hv : ∀ s ∈ validSessions getMarketInfo market_set,
      s.1 ≤ TimeDelta.new 0 23 59 59 999 999 ∧ 0 ≤ s.2 := by
    intro s hs
    simp only [validSessions, List.mem_filter, List.mem_flatMap] at hs
    obtain ⟨⟨market, hm, hs2⟩, _⟩ := hs
    have := hday market hm s hs2
    exact ⟨this.2.1, this.2.2.1⟩
  unfold tradingWindow
  rw [tradingWindow_fold]
  obtain ⟨_, _, j3, j4, j5⟩ := foldSessions_spec (validSessions getMarketInfo market_set)
    (TimeDelta.new 0 23 59 59 999 999, TimeDelta.new 0 0 0 0 0 0)
  refine ⟨j3, ?_, ?_⟩
  · intro hne
    obtain ⟨s0, hs0⟩ := List.exists_mem_of_ne_nil _ hne
    constructor
    · rcases j4 with h | h
      · refine ⟨s0, hs0, le_antisymm ?_ (j3 s0 hs0).1⟩
        rw [h]
        exact (hv s0 hs0).1
      · exact h
    · rcases j5 with h | h
      · refine ⟨s0, hs0, le_antisymm (j3 s0 hs0).2 ?_⟩
        rw [h]
        exact (hv s0 hs0).2
      · exact h
  · intro hnil
    rw [hnil]
    rfl

theorem trading_window_derivation_witness :
    (∀ market ∈ ["SH"], ∀ s ∈ sessionsOf ((fun _ => exMarket) market),
      0 ≤ s.1 ∧ s.1 ≤ TimeDelta.new 0 23 59 59 999 999 ∧
      0 ≤ s.2 ∧ s.2 ≤ TimeDelta.new 0 23 59 59 999 999) ∧
    ∀ s ∈ validSessions (fun _ => exMarket) ["SH"],
      (tradingWindow (fun _ => exMarket) ["SH"]).1 ≤ s.1 ∧
      s.2 ≤ (tradingWindow (fun _ => exMarket) ["SH"]).2 := by
  have hday : ∀ market ∈ ["SH"], ∀ s ∈ sessionsOf ((fun _ => exMarket) market),
      0 ≤ s.1 ∧ s.1 ≤ TimeDelta.new 0 23 59 59 999 999 ∧
      0 ≤ s.2 ∧ s.2 ≤ TimeDelta.new 0 23 59 59 999 999 := by
    intro market _ s hs
    simp only [sessionsOf, exMarket, List.mem_cons, List.mem_singleton, List.not_mem_nil,
      or_false] at hs
    rcases hs with rfl | rfl <;> decide
  exact ⟨hday, (trading_window_derivation (fun _ => exMarket) ["SH"] hday).1⟩

/-! ## Tick handling -/

theorem finishLoop_spec (kd : KDataSource) (ref_stk : Stock) (ktypes : List KType)
    (s : StrategyBase) :
    ∃ em : List KType,
      (ktypes.foldl (finishReceivedSpotStep kd ref_stk) s).m_event_queue
        = s.m_event_queue ++ em.map (fun k => some (Callback.onBar k)) ∧
      em.Sublist ktypes ∧ em.Nodup ∧
      (∀ k, k ∈ em ↔ k ∈ ktypes ∧ kd.getCount ref_stk k > 0 ∧
        (kd.getKRecord ref_stk (kd.getCount ref_stk k - 1) k).datetime ≠ s.m_ref_last_time k) ∧
      (∀ k, k ∈ em →
        (ktypes.foldl (finishReceivedSpotStep kd ref_stk) s).m_ref_last_time k
          = (kd.getKRecord ref_stk (kd.getCount ref_stk k - 1) k).datetime) ∧
      (∀ k, k ∉ em →
        (ktypes.foldl (finishReceivedSpotStep kd ref_stk) s).m_ref_last_time k
          = s.m_ref_last_time k) := by
  induction ktypes generalizing s with
  | nil => exact ⟨[], by simp⟩
  | cons k rest ih =>
    simp only [List.foldl_cons]
    by_cases hc : kd.getCount ref_stk k > 0 ∧
        (kd.getKRecord ref_stk (kd.getCount ref_stk k - 1) k).datetime ≠ s.m_ref_last_time k
    · have hstep : finishReceivedSpotStep kd ref_stk s k
          = event
              { s with
                m_ref_last_time := fun j =>
                  if j = k then (kd.getKRecord ref_stk (kd.getCount ref_stk k - 1) k).datetime
                  else s.m_ref_last_time j }
              (.onBar k) := by
        simp only [finishReceivedSpotStep, hc.1, hc.2, if_true, ne_eq, not_false_eq_true]
      rw [hstep]
      obtain ⟨em, h1, h2, h3, h4, h5, h6⟩ := ih
        (event
          { s with
            m_ref_last_time := fun j =>
              if j = k then (kd.getKRecord ref_stk (kd.getCount ref_stk k - 1) k).datetime
              else s.m_ref_last_time j }
          (.onBar k))
      simp only [event] at h1 h4 h5 h6 ⊢
      have hk : k ∉ em := by
        intro hmem
        have := (h4 k).mp hmem
        simp at this
      refine ⟨k :: em, ?_, h2.cons₂ k, List.nodup_cons.mpr ⟨hk, h3⟩, ?_, ?_, ?_⟩
      · rw [h1]; simp
      · intro j
        rw [List.mem_cons, h4 j, List.mem_cons]
        by_cases hj : j = k
        · subst hj
          simp [hc.1, hc.2]
        · simp [hj]
      · intro j hj
        rcases List.mem_cons.mp hj with hjk | hjk
        · subst hjk
          rw [h6 j hk]
          simp
        · exact h5 j hjk
      · intro j hj
        have hj1 : j ≠ k := fun h => hj (h ▸ List.mem_cons_self _ _)
        have hj2 : j ∉ em := fun h => hj (List.mem_cons_of_mem _ h)
        rw [h6 j hj2]
        simp [hj1]
    · have hstep : finishReceivedSpotStep kd ref_stk s k = s := by
        unfold finishReceivedSpotStep
        simp only []
        split_ifs with a b
        · exact absurd ⟨a, b⟩ hc
        · rfl
        · rfl
      rw [hstep]
      obtain ⟨em, h1, h2, h3, h4, h5, h6⟩ := ih s
      refine ⟨em, h1, h2.cons k, h3, ?_, h5, h6⟩
      intro j
      rw [h4 j, List.mem_cons]
      constructor
      · rintro ⟨a, b⟩
        exact ⟨Or.inr a, b⟩
      · rintro ⟨a | a, b⟩
        · subst a
          exact absurd b hc
        · exact ⟨a, b⟩

/-- C19. With a non-empty instrument universe, finishing a received batch appends to the
event queue one onTick event and then one onBar(timeframe) event for each timeframe of the
timeframe list, in list order and once each, for which the first instrument has at least one
bar and its latest bar timestamp differs from the recorded one; the recorded timestamp of
each such timeframe becomes the latest bar timestamp and the recorded timestamps of the other
timeframes are unchanged.  With an empty universe nothing is enqueued and nothing changes. -/
theorem tick_handling (kd : KDataSource) (s : StrategyBase) (revTime : Datetime) :
    (s.m_stock_list = [] → finishReceivedSpot kd s revTime = s) ∧
    (∀ ref_stk rest, s.m_stock_list = ref_stk :: rest →
      ∃ em : List KType,
        (finishReceivedSpot kd s revTime).m_event_queue
          = s.m_event_queue ++ some .onTick :: em.map (fun k => some (Callback.onBar k)) ∧
        em.Sublist s.ktype_list ∧ em.Nodup ∧
        (∀ k, k ∈ em ↔ k ∈ s.ktype_list ∧ kd.getCount ref_stk k > 0 ∧
          (kd.getKRecord ref_stk (kd.getCount ref_stk k - 1) k).datetime
            ≠ s.m_ref_last_time k) ∧
        (∀ k, k ∈ em →
          (finishReceivedSpot kd s revTime).m_ref_last_time k
            = (kd.getKRecord ref_stk (kd.getCount ref_stk k - 1) k).datetime) ∧
        (∀ k, k ∉ em →
          (finishReceivedSpot kd s revTime).m_ref_last_time k = s.m_ref_last_time k)) := by
  constructor
  · intro h
    simp [finishReceivedSpot, h]
  · intro ref_stk rest h
    obtain ⟨em, h1, h2, h3, h4, h5, h6⟩ :=
      finishLoop_spec kd ref_stk s.ktype_list (event s .onTick)
    have e : finishReceivedSpot kd s revTime
        = s.ktype_list.foldl (finishReceivedSpotStep kd ref_stk) (event s .onTick) := by
      unfold finishReceivedSpot
      split
      next h0 => rw [h] at h0; cases h0
      next r t h0 => rw [h] at h0; cases h0; rfl
    rw [e]
    refine ⟨em, ?_, h2, h3, h4, h5, h6⟩
    rw [h1]
    simp only [event, List.append_assoc, List.singleton_append]

theorem tick_handling_witness :
    exStrategy.m_stock_list = [exStock, exStock2] ∧
    ∃ em : List KType,
      (finishReceivedSpot exKData exStrategy 0).m_event_queue
        = exStrategy.m_event_queue ++ some .onTick
          :: em.map (fun k => some (Callback.onBar k)) ∧
      em.Sublist exStrategy.ktype_list :=
  ⟨rfl, ((tick_handling exKData exStrategy 0).2 exStock [exStock2] rfl).imp
    fun _ h => ⟨h.1, h.2.1⟩⟩

/-! ## Other instruments are left alone -/

/-- C21. A buy or sell call on an instrument, accepted or rejected, leaves the position
record of every other instrument as it was: for every other instrument id the map holds the
same record after the call as before, or none after as none before. -/
theorem other_positions_untouched (tm : OrderTradeManager) (datetime : Datetime)
    (stock : Stock) (realPrice : price_t) (number : Dbl) (stoploss goalPrice planPrice : price_t)
    (fromPart : SystemPart) (other : Nat) (hother : other ≠ stock.id) :
    mapFind other
        (buy tm datetime stock realPrice number stoploss goalPrice planPrice
          fromPart).tm.m_position
      = mapFind other tm.m_position ∧
    (∀ o, sell tm datetime stock realPrice number stoploss goalPrice planPrice fromPart = some o →
      mapFind other o.tm.m_position = mapFind other tm.m_position) ∧
    mapFind other
        (step tm (.sell datetime stock realPrice number stoploss goalPrice planPrice
          fromPart)).m_position
      = mapFind other tm.m_position := by
  have hsell : ∀ o,
      sell tm datetime stock realPrice number stoploss goalPrice planPrice fromPart = some o →
      mapFind other o.tm.m_position = mapFind other tm.m_position := by
    intro o h
    have hn : number.isnan = false := by
      cases hnan : number.isnan
      · rfl
      · simp [sell, hnan] at h
    rcases sell_cases tm datetime stock realPrice number stoploss goalPrice planPrice fromPart hn
      with ⟨hb, _⟩ | ⟨position, _, hb, _⟩
    · rw [hb] at h
      simp only [Option.some.injEq] at h
      subst h
      rfl
    · rw [hb] at h
      simp only [Option.some.injEq] at h
      subst h
      rw [sellFill_position]
      generalize (if Dbl.eq number MAX_DOUBLE = true then position.number else number) = r
      split_ifs
      · exact mapFind_mapErase_other _ _ _ hother
      · exact mapFind_mapAssign_other _ _ _ _ hother
  refine ⟨?_, hsell, ?_⟩
  · rcases buy_cases tm datetime stock realPrice number stoploss goalPrice planPrice fromPart
      with ⟨hb, _⟩ | ⟨hb, _⟩
    · rw [hb]
    · rw [hb, buyFill_position]
      cases mapFind stock.id tm.m_position with
      | none => exact mapFind_mapAssign_other _ _ _ _ hother
      | some position => exact mapFind_mapAssign_other _ _ _ _ hother
  · simp only [step]
    cases hs : sell tm datetime stock realPrice number stoploss goalPrice planPrice fromPart with
    | none => rfl
    | some o => exact hsell o hs

theorem other_positions_untouched_witness :
    (1 : Nat) ≠ exStock2.id ∧
    (mapFind 1 exLedger1.m_position).map (fun p => p.number) = some (.fin 100) ∧
    mapFind 1
        (buy exLedger1 20 exStock2 (.fin 10) (.fin 100) (.fin 9) (.fin 12) (.fin 10)
          0).tm.m_position
      = mapFind 1 exLedger1.m_position :=
  ⟨by decide, by rw [exLedger1_position]; simp [mapFind],
    (other_positions_untouched exLedger1 20 exStock2 (.fin 10) (.fin 100) (.fin 9) (.fin 12)
      (.fin 10) 0 1 (by decide)).1⟩

/-! ## Validity of the trading window -/

theorem validSessions_eq_nil_iff (getMarketInfo : String → MarketInfo)
    (market_set : List String) :
    validSessions getMarketInfo market_set = [] ↔
      ∀ market ∈ market_set, ∀ s ∈ sessionsOf (getMarketInfo market), ¬ s.1 < s.2 := by
  simp only [validSessions, List.filter_eq_nil_iff, List.mem_flatMap, decide_eq_true_eq,
    forall_exists_index, and_imp]
  constructor
  · intro h market hm s hs
    exact h s market hm hs
  · intro h s market hm hs
    exact h market hm s hs

/-- The derived window has open < close exactly when some session of the listed markets has
open before close. -/
theorem tradingWindow_lt_iff (getMarketInfo : String → MarketInfo) (market_set : List String) :
    (tradingWindow getMarketInfo market_set).1 < (tradingWindow getMarketInfo market_set).2 ↔
      validSessions getMarketInfo market_set ≠ [] := by
  constructor
  · intro h hnil
    unfold tradingWindow at h
    rw [tradingWindow_fold, hnil] at h
    revert h
    decide
  · intro hne
    obtain ⟨s, hs⟩ := List.exists_mem_of_ne_nil _ hne
    have hlt : s.1 < s.2 := by
      simp only [validSessions, List.mem_filter, decide_eq_true_eq] at hs
      exact hs.2
    unfold tradingWindow
    rw [tradingWindow_fold]
    obtain ⟨_, _, j3, _, _⟩ := foldSessions_spec (validSessions getMarketInfo market_set)
      (TimeDelta.new 0 23 59 59 999 999, TimeDelta.new 0 0 0 0 0 0)
    exact lt_of_le_of_lt (j3 s hs).1 (lt_of_lt_of_le hlt (j3 s hs).2)

/-- C22. The derived trading window is invalid (open >= close) exactly when no market of the
active instruments has a session with open strictly before close, for session times within
a day and indeed for any session times; then nothing is registered.  When some market has
such a session the derived window has open < close and the registration proceeds: the
market events, if enabled, and the nine clock granularities are handed to the scheduler. -/
theorem window_invalid_iff (getMarketInfo : String → MarketInfo) (getParam : String → Bool)
    (m_stock_list : List Stock) :
    ((tradingWindow getMarketInfo (m_stock_list.map fun stk => stk.market).dedup).1
        ≥ (tradingWindow getMarketInfo (m_stock_list.map fun stk => stk.market).dedup).2 ↔
      ∀ stk ∈ m_stock_list, ∀ s ∈ sessionsOf (getMarketInfo stk.market), ¬ s.1 < s.2) ∧
    ((∀ stk ∈ m_stock_list, ∀ s ∈ sessionsOf (getMarketInfo stk.market), ¬ s.1 < s.2) →
      _addTimer getMarketInfo getParam m_stock_list = []) ∧
    ((∃ stk ∈ m_stock_list, ∃ s ∈ sessionsOf (getMarketInfo stk.market), s.1 < s.2) →
      (tradingWindow getMarketInfo (m_stock_list.map fun stk => stk.market).dedup).1
        < (tradingWindow getMarketInfo (m_stock_list.map fun stk => stk.market).dedup).2 ∧
      _addTimer getMarketInfo getParam m_stock_list
        = (if getParam "enable_market_event" then
            [.addFuncAtTimeEveryDay
                (tradingWindow getMarketInfo (m_stock_list.map fun stk => stk.market).dedup).1
                (.enqueue .onMarketOpen),
              .addFuncAtTimeEveryDay
                (tradingWindow getMarketInfo (m_stock_list.map fun stk => stk.market).dedup).2
                (.enqueue .onMarketClose)]
          else [])
          ++ _addClockEvent getParam "enable_30_seconds_clock" (Seconds 30)
            (tradingWindow getMarketInfo (m_stock_list.map fun stk => stk.market).dedup).1
            (tradingWindow getMarketInfo (m_stock_list.map fun stk => stk.market).dedup).2
          ++ _addClockEvent getParam "enable_1min_clock" (Minutes 1)
            (tradingWindow getMarketInfo (m_stock_list.map fun stk => stk.market).dedup).1
            (tradingWindow getMarketInfo (m_stock_list.map fun stk => stk.market).dedup).2
          ++ _addClockEvent getParam "enable_3min_clock" (Minutes 3)
            (tradingWindow getMarketInfo (m_stock_list.map fun stk => stk.market).dedup).1
            (tradingWindow getMarketInfo (m_stock_list.map fun stk => stk.market).dedup).2
          ++ _addClockEvent getParam "enable_5min_clock" (Minutes 5)
            (tradingWindow getMarketInfo (m_stock_list.map fun stk => stk.market).dedup).1
            (tradingWindow getMarketInfo (m_stock_list.map fun stk => stk.market).dedup).2
          ++ _addClockEvent getParam "enable_10min_clock" (Minutes 10)
            (tradingWindow getMarketInfo (m_stock_list.map fun stk => stk.market).dedup).1
            (tradingWindow getMarketInfo (m_stock_list.map fun stk => stk.market).dedup).2
          ++ _addClockEvent getParam "enable_15min_clock" (Minutes 15)
            (tradingWindow getMarketInfo (m_stock_list.map fun stk => stk.market).dedup).1
            (tradingWindow getMarketInfo (m_stock_list.map fun stk => stk.market).dedup).2
          ++ _addClockEvent getParam "enable_30min_clock" (Minutes 30)
            (tradingWindow getMarketInfo (m_stock_list.map fun stk => stk.market).dedup).1
            (tradingWindow getMarketInfo (m_stock_list.map fun stk => stk.market).dedup).2
          ++ _addClockEvent getParam "enable_60min_clock" (Minutes 60)
            (tradingWindow getMarketInfo (m_stock_list.map fun stk => stk.market).dedup).1
            (tradingWindow getMarketInfo (m_stock_list.map fun stk => stk.market).dedup).2
          ++ _addClockEvent getParam "enable_2hour_clock" (Hours 2)
            (tradingWindow getMarketInfo (m_stock_list.map fun stk => stk.market).dedup).1
            (tradingWindow getMarketInfo (m_stock_list.map fun stk => stk.market).dedup).2) := by
  have hmem : (∀ market ∈ (m_stock_list.map fun stk => stk.market).dedup,
        ∀ s ∈ sessionsOf (getMarketInfo market), ¬ s.1 < s.2) ↔
      ∀ stk ∈ m_stock_list, ∀ s ∈ sessionsOf (getMarketInfo stk.market), ¬ s.1 < s.2 := by
    constructor
    · intro h stk hstk
      exact h stk.market (List.mem_dedup.mpr (List.mem_map.mpr ⟨stk, hstk, rfl⟩))
    · intro h market hm
      obtain ⟨stk, hstk, rfl⟩ := List.mem_map.mp (List.mem_dedup.mp hm)
      exact h stk hstk
  have hiff : (tradingWindow getMarketInfo (m_stock_list.map fun stk => stk.market).dedup).1
        ≥ (tradingWindow getMarketInfo (m_stock_list.map fun stk => stk.market).dedup).2 ↔
      ∀ stk ∈ m_stock_list, ∀ s ∈ sessionsOf (getMarketInfo stk.market), ¬ s.1 < s.2 := by
    rw [← hmem, ← validSessions_eq_nil_iff, ge_iff_le, ← not_lt, tradingWindow_lt_iff]
    exact not_not
  refine ⟨hiff, ?_, ?_⟩
  · intro h
    simp only [_addTimer, if_pos (hiff.mpr h)]
  · rintro ⟨stk, hstk, s, hs, hlt⟩
    have hw : (tradingWindow getMarketInfo (m_stock_list.map fun stk => stk.market).dedup).1
        < (tradingWindow getMarketInfo (m_stock_list.map fun stk => stk.market).dedup).2 := by
      by_contra hcon
      exact (hiff.mp (not_lt.mp hcon)) stk hstk s hs hlt
    refine ⟨hw, ?_⟩
    simp only [_addTimer, if_neg (not_le.mpr hw)]

theorem window_invalid_iff_witness :
    (∃ stk ∈ [exStock], ∃ s ∈ sessionsOf ((fun _ => exMarket) stk.market), s.1 < s.2) ∧
    (tradingWindow (fun _ => exMarket) ([exStock].map fun stk => stk.market).dedup).1
      < (tradingWindow (fun _ => exMarket) ([exStock].map fun stk => stk.market).dedup).2 := by
  have h : ∃ stk ∈ [exStock], ∃ s ∈ sessionsOf ((fun _ => exMarket) stk.market), s.1 < s.2 :=
    ⟨exStock, List.mem_singleton_self _, (exMarket.openTime1, exMarket.closeTime1),
      by simp [sessionsOf], by decide⟩
  exact ⟨h, ((window_invalid_iff (fun _ => exMarket) (fun _ => false) [exStock]).2.2 h).1⟩

end hku
